import Mathlib

/-!
Verification development for the brand-ad-intelligence repository.

The TypeScript sources under `src/` are shallowly embedded as executable
Lean definitions.  Conventions used throughout:

* JavaScript strings are Lean `String`s; all string operations
  (`toLowerCase`, `trim`, `includes`, `replace`, `split`) are re-implemented
  on the character list so that everything reduces in the kernel.
* Confidence scores are floating-point literals with two decimal digits in
  the source (0.70, 0.85, ...).  They are only ever assigned and compared,
  never combined arithmetically on the claim-relevant paths, so they are
  embedded as natural numbers in hundredths (0.85 ↦ 85).  The source's
  `MIN_CONFIDENCE = 0.70` becomes `70`.
* `T | null | undefined` becomes `Option T`; JavaScript truthiness of a
  string option (`if (x)`) is `optTruthy` (none and the empty string are
  falsy).
* Network effects (`fetch`, ScrapingBee, products.json) are abstracted
  into explicit environment records of pure functions; a failing call is
  `none`, mirroring the source's catch-and-return-null wrappers.
* Mutable `Map`s / `Set`s are association lists / lists with
  insertion-order-preserving update, matching JavaScript iteration order.
-/

/-! ### JavaScript string primitives -/

/-- JS `\s` (the whitespace characters relevant to this code base). -/
def jsIsSpace (c : Char) : Bool :=
  c = ' ' || c = '\t' || c = '\n' || c = '\r' || c = '\x0b' || c = '\x0c'

/-- The upper/lower pairs `String.prototype.toLowerCase` acts on within
the character set of this code base (ASCII plus the German umlauts). -/
def lowerPairs : List (Char × Char) :=
  [('A', 'a'), ('B', 'b'), ('C', 'c'), ('D', 'd'), ('E', 'e'), ('F', 'f'), ('G', 'g'),
   ('H', 'h'), ('I', 'i'), ('J', 'j'), ('K', 'k'), ('L', 'l'), ('M', 'm'), ('N', 'n'),
   ('O', 'o'), ('P', 'p'), ('Q', 'q'), ('R', 'r'), ('S', 's'), ('T', 't'), ('U', 'u'),
   ('V', 'v'), ('W', 'w'), ('X', 'x'), ('Y', 'y'), ('Z', 'z'),
   ('Ä', 'ä'), ('Ö', 'ö'), ('Ü', 'ü')]

/-- Lower-case one character (identity outside `lowerPairs`). -/
def jsToLowerChar (c : Char) : Char :=
  ((lowerPairs.find? (fun p => p.1 = c)).map (·.2)).getD c

/-- JS `s.toLowerCase()`. -/
def jsToLower (s : String) : String := ⟨s.data.map jsToLowerChar⟩

/-- Upper-case a character (`String.prototype.toUpperCase`, same charset). -/
def jsToUpperChar (c : Char) : Char :=
  ((lowerPairs.find? (fun p => p.2 = c)).map (·.1)).getD c

/-- JS `s.trim()`. -/
def jsTrim (s : String) : String :=
  ⟨((s.data.dropWhile jsIsSpace).reverse.dropWhile jsIsSpace).reverse⟩

/-- Is `pat` a (contiguous) prefix of `l`? -/
def listIsPrefixOf : List Char → List Char → Bool
  | [], _ => true
  | _ :: _, [] => false
  | a :: as, b :: bs => a = b && listIsPrefixOf as bs

/-- Is `pat` a contiguous sublist of `l`?  (JS `String.prototype.includes`.) -/
def listIsSubList (pat : List Char) : List Char → Bool
  | [] => pat.isEmpty
  | b :: bs => listIsPrefixOf pat (b :: bs) || listIsSubList pat bs

/-- JS `s.includes(pat)`. -/
def strContains (s pat : String) : Bool := listIsSubList pat.data s.data

/-- JS `s.startsWith(pat)`. -/
def strStarts (s pat : String) : Bool := listIsPrefixOf pat.data s.data

/-- JS `s.replace(/[\s\-_.]+/g, '')` — drop whitespace and separator chars. -/
def stripSeparators (s : String) : String :=
  ⟨s.data.filter (fun c => !(jsIsSpace c || c = '-' || c = '_' || c = '.'))⟩

/-- JS `s.replace(/\s+/g, '')` — drop all whitespace. -/
def stripSpaces (s : String) : String := ⟨s.data.filter (fun c => !jsIsSpace c)⟩

/-- JS truthiness of a nullable string (`undefined`/`null`/`""` are falsy). -/
def optTruthy : Option String → Bool
  | none => false
  | some s => s ≠ ""

/-- Split a string at every character satisfying `p`, dropping the empty
pieces — the composition of JS `split(/\s+/)` (or `split('/')`) with the
non-empty filter that every caller in this code base applies next. -/
def splitDrop (p : Char → Bool) (s : String) : List String :=
  ((s.data.splitOnP p).filter (· ≠ [])).map (fun l => (⟨l⟩ : String))

/-- First component of JS `s.split(sep)` (everything before the first
occurrence of the one-character separator; the whole string if absent). -/
def takeBefore (c : Char) (s : String) : String := ⟨s.data.takeWhile (· ≠ c)⟩

/-- JS `s.replace(/\/+$/, '')` — drop trailing slashes. -/
def dropTrailingSlashes (s : String) : String :=
  ⟨(s.data.reverse.dropWhile (· = '/')).reverse⟩

/-! ### URL parsing (the fragment of WHATWG `new URL` exercised here:
absolute http(s) URLs; parse failure models the constructor throwing) -/

structure UrlParts where
  host : String
  pathname : String
  search : String
deriving Repr, DecidableEq

/-- Is `c` allowed in a URL scheme? -/
def isSchemeChar (c : Char) : Bool :=
  ('a' ≤ c && c ≤ 'z') || ('A' ≤ c && c ≤ 'Z') || ('0' ≤ c && c ≤ '9') ||
  c = '+' || c = '-' || c = '.'

/-- Parse an absolute `scheme://host/path?query` URL.  Returns `none` when
the string has no `://`-style scheme or an empty host — the cases in which
`new URL(url)` throws for the URLs this pipeline handles. -/
def parseUrl (url : String) : Option UrlParts :=
  let l := url.data
  let scheme := l.takeWhile (· ≠ ':')
  let rest := l.drop (scheme.length)
  if scheme.isEmpty ∨ ¬(scheme.all isSchemeChar) then none
  else if listIsPrefixOf "://".data rest then
    let afterScheme := rest.drop 3
    let authority := afterScheme.takeWhile (fun c => c ≠ '/' && c ≠ '?' && c ≠ '#')
    let hostPart := (if '@' ∈ authority then (authority.splitOnP (· = '@')).getLast! else authority)
    let host := hostPart.takeWhile (· ≠ ':')
    if host.isEmpty then none
    else
      let afterAuth := afterScheme.drop authority.length
      let pathname :=
        if afterAuth.head? = some '/' then afterAuth.takeWhile (fun c => c ≠ '?' && c ≠ '#')
        else ['/']
      let afterPath := afterAuth.drop (if afterAuth.head? = some '/' then pathname.length else 0)
      let search :=
        if afterPath.head? = some '?' then afterPath.takeWhile (· ≠ '#') else []
      some ⟨jsToLower ⟨host⟩, ⟨pathname⟩, ⟨search⟩⟩
  else none

/-- JS `s.replace(/^www\./, '')`. -/
def stripWww (s : String) : String :=
  if strStarts s "www." then ⟨s.data.drop 4⟩ else s

/-- `extractDomainFromUrl` (src/lib/brand-discovery.ts): hostname of the
URL, lower-cased, `www.` stripped; `null` when the URL does not parse. -/
def extractDomainFromUrl (url : String) : Option String :=
  (parseUrl url).map (fun p => jsToLower (stripWww p.host))

/-! ### Data model (src/lib/types.ts) -/

structure BeneficiaryPayer where
  beneficiary : Option String
  payer : Option String
deriving Repr, DecidableEq

structure MetaAd where
  id : String
  page_id : Option String
  page_name : Option String
  ad_creative_bodies : Option (List String)
  ad_creative_link_titles : Option (List String)
  ad_creative_link_descriptions : Option (List String)
  ad_creative_link_captions : Option (List String)
  ad_snapshot_url : Option String
  beneficiary_payers : Option (List BeneficiaryPayer)
deriving Repr, DecidableEq

/-- An ad with no optional fields set, for building test inputs. -/
def emptyAd (id : String) : MetaAd :=
  ⟨id, none, none, none, none, none, none, none, none⟩

structure BrandInfo where
  brand_name : String
  brand_domain : Option String
  brand_aliases : List String
  shopify_store : Option String
  vendor_name : Option String
  platform : Option String
  official_page_ids : List String
  brand_payers : List String
deriving Repr, DecidableEq

/-- `DomainBrandCheck` — one VerificationResult per candidate domain.
`confidence` is in hundredths (0.85 ↦ 85). -/
structure DomainBrandCheck where
  domain : String
  is_match : Bool
  match_type : String
  confidence : ℕ
  final_url : Option String
  redirect_chain : List String
  shop_domain : Option String
  vendor_name : Option String
  page_ids : List String
  ad_count : ℕ
deriving Repr, DecidableEq

structure PageInfo where
  page_id : String
  page_name : String
  ad_count : ℕ
  is_official : Bool
deriving Repr, DecidableEq

structure ThirdPartyPageInfo where
  page_id : String
  page_name : String
  ad_count : ℕ
  connection_type : String
  confidence : ℕ
  discovered_via : String
  domains_used : List String
deriving Repr, DecidableEq

structure LandingPageInfo where
  url : String
  count : ℕ
  domain : String
  full_path : String
  leads_to : Option String
  extraction_method : String
deriving Repr, DecidableEq

structure PresellChainInfo where
  presell_domain : String
  chain : List String
  final_domain : String
deriving Repr, DecidableEq

structure ScanStats where
  keywords_used : List String
  total_ads_scanned : ℕ
  unique_domains_checked : ℕ
  matches_found : ℕ
  detection_methods : List (String × ℕ)
deriving Repr, DecidableEq

structure DomainLists where
  presell : List String
  redirect : List String
  final_shop : List String
  all : List String
deriving Repr, DecidableEq

structure PagesMapping where
  official : List PageInfo
  third_party : List ThirdPartyPageInfo
deriving Repr, DecidableEq

structure BrandDiscoveryResponse where
  success : Bool
  status : String
  brand : String
  brand_domain : Option String
  brand_platform : Option String
  pages : PagesMapping
  domains : DomainLists
  domain_urls : List (String × List (String × ℕ))
  top_landing_pages : List LandingPageInfo
  presell_chains : List PresellChainInfo
  scan_stats : ScanStats
  error : Option String
deriving Repr, DecidableEq

/-! ### Association lists and insertion-ordered sets
(JavaScript `Map` / `Set` with their insertion-order iteration) -/

/-- Stable insertion into a `le`-sorted list: the new element goes
after every element currently before it that `le`-precedes-or-ties it,
reproducing the stable sort of `Array.prototype.sort`. -/
def insertLe {α : Type} (le : α → α → Bool) (x : α) : List α → List α
  | [] => [x]
  | y :: ys => if le y x then y :: insertLe le x ys else x :: y :: ys

/-- Stable sort by a boolean total preorder (JS `Array.prototype.sort`
with a comparator; stable, as required since ES2019). -/
def jsSortBy {α : Type} (le : α → α → Bool) (l : List α) : List α :=
  l.foldl (fun acc x => insertLe le x acc) []

/-- `Map.get`. -/
def alGet {β : Type} : List (String × β) → String → Option β
  | [], _ => none
  | (k', v) :: rest, k => if k' = k then some v else alGet rest k

/-- `Map.set` — updates in place (keeping the key's position) or appends. -/
def alSet {β : Type} : List (String × β) → String → β → List (String × β)
  | [], k, v => [(k, v)]
  | (k', v') :: rest, k, v =>
    if k' = k then (k, v) :: rest else (k', v') :: alSet rest k v

/-- `Set.add` (no-op when the element is present). -/
def setAdd (s : List String) (x : String) : List String :=
  if x ∈ s then s else s ++ [x]

/-! ### Redirect Chain Tracker (src/lib/redirect-tracker.ts) -/

structure RedirectChain where
  initial_url : String
  final_url : String
  chain : List String
deriving Repr, DecidableEq

/-- `MAX_REDIRECTS` in src/lib/redirect-tracker.ts. -/
def MAX_REDIRECTS : ℕ := 10

/-- The redirect environment: `env u = some next` means fetching `u`
answers with a redirect status and a `Location` header resolving (via
`new URL(location, u)`) to `next`; `env u = none` means a non-redirect
status, a missing `Location`, or a network error after the HEAD/GET/meta
fallbacks — every case in which the source's loop stops at `u`. -/
def RedirectEnv : Type := String → Option String

/-- The `while (redirectCount < MAX_REDIRECTS)` loop of
`trackRedirectChain`, with the remaining hop budget explicit. -/
def trackLoop (env : RedirectEnv) : ℕ → String → List String → String × List String
  | 0, current, chain => (current, chain)
  | n + 1, current, chain =>
    match env current with
    | some next => trackLoop env n next (chain ++ [next])
    | none => (current, chain)

/-- `trackRedirectChain` (src/lib/redirect-tracker.ts, lines 15–100):
follows up to `MAX_REDIRECTS` redirects, recording each hop in `chain`.
Note: the source has no repeated-URL check inside this loop. -/
def trackRedirectChain (env : RedirectEnv) (initialUrl : String) : RedirectChain :=
  let r := trackLoop env MAX_REDIRECTS initialUrl [initialUrl]
  ⟨initialUrl, r.1, r.2⟩

/-! ### Shopify vendor matching (src/lib/shopify-detector.ts) -/

structure VendorCheck where
  found : Bool
  matched_vendor : Option String
  confidence : ℕ
deriving Repr, DecidableEq

/-- The vendor comparison loop of `shopifyStoreHasVendor`
(src/lib/shopify-detector.ts, lines 170–201): for each vendor, first an
exact lower-cased match (0.95), then substring containment in either
direction (0.80), then separator-normalized equality (0.85). -/
def vendorLoop (brandLower : String) : List String → VendorCheck
  | [] => ⟨false, none, 0⟩
  | vendor :: rest =>
    let vendorLower := jsTrim (jsToLower vendor)
    if vendorLower = brandLower then ⟨true, some vendor, 95⟩
    else if strContains vendorLower brandLower || strContains brandLower vendorLower then
      ⟨true, some vendor, 80⟩
    else if stripSeparators vendorLower = stripSeparators brandLower then
      ⟨true, some vendor, 85⟩
    else vendorLoop brandLower rest

/-- `shopifyStoreHasVendor(domain, brandName)` with the `/products.json`
fetch abstracted to its vendor list (`none` = fetch failed / not JSON). -/
def shopifyStoreHasVendor (products : Option (List String)) (brandName : String) : VendorCheck :=
  match products with
  | none => ⟨false, none, 0⟩
  | some vendors => vendorLoop (jsTrim (jsToLower brandName)) vendors

/-! ### Caption extraction (src/unnamed part: url-extractor.ts) -/

/-- JS `s.replace(/^(https?:\/\/)?(www\.)?/i, '')` on an already
lower-cased string. -/
def stripUrlProto (s : String) : String :=
  let s1 : String :=
    if strStarts s "https://" then ⟨s.data.drop 8⟩
    else if strStarts s "http://" then ⟨s.data.drop 7⟩
    else s
  stripWww s1

/-- `extractDomainFromCaption` (url-extractor.ts): trim + lower-case,
strip protocol and `www.`, keep everything before the first `/`, and
validate (non-empty, has a dot, no space). -/
def extractDomainFromCaption (caption : Option String) : Option String :=
  match caption with
  | none => none
  | some c =>
    if c = "" then none
    else
      let domain := takeBefore '/' (stripUrlProto (jsToLower (jsTrim c)))
      if domain ≠ "" ∧ strContains domain "." ∧ ¬ strContains domain " " then some domain
      else none

/-- `extractFullUrlFromCaption` (url-extractor.ts): like the domain
extraction but preserves the path, re-prefixing `https://`. -/
def extractFullUrlFromCaption (caption : Option String) : Option String :=
  match caption with
  | none => none
  | some c =>
    if c = "" then none
    else
      let cleaned := dropTrailingSlashes (stripUrlProto (jsToLower (jsTrim c)))
      let domainPart := takeBefore '/' cleaned
      if domainPart ≠ "" ∧ strContains domainPart "." ∧ ¬ strContains domainPart " " then
        some ("https://" ++ cleaned)
      else none

/-! ### href extraction (the `/href=["']([^"']*?)["']/gi` scans of
step 6g in src/lib/brand-discovery.ts) -/

/-- Case-insensitive prefix test on character lists. -/
def listStartsWithCI (pat : List Char) (l : List Char) : Bool :=
  listIsPrefixOf (pat.map jsToLowerChar) (l.map jsToLowerChar)

/-- One pass of the global regex `/href=["']([^"']*?)["']/gi`: at each
position try to match `href=` (case-insensitively) followed by a quote,
capture lazily up to the next quote of either kind, and continue after
the closing quote.  Fuel is the remaining string length. -/
def extractHrefsAux : ℕ → List Char → List String
  | 0, _ => []
  | _ + 1, [] => []
  | n + 1, c :: rest =>
    if listStartsWithCI "href=".data (c :: rest) then
      match (c :: rest).drop 5 with
      | q :: tail =>
        if q = '"' ∨ q = '\'' then
          let captured := tail.takeWhile (fun x => x ≠ '"' && x ≠ '\'')
          match tail.drop captured.length with
          | _ :: afterQuote => (⟨captured⟩ : String) :: extractHrefsAux n afterQuote
          | [] => []
        else extractHrefsAux n rest
      | [] => []
    else extractHrefsAux n rest

/-- All quoted `href` values appearing in an HTML string. -/
def extractHrefs (html : String) : List String :=
  extractHrefsAux html.data.length html.data

/-! ### Domain verification cascade (src/lib/brand-discovery.ts,
`checkDomainForBrand` and helpers) -/

/-- `isDomainMatch` (brand-discovery.ts): exact brand domain, the
`<store>.myshopify.com` variant, or containment of a separator-stripped
alias of length ≥ 3. -/
def isDomainMatch (domain : String) (brandInfo : BrandInfo) : Bool :=
  let domainLower := stripWww (jsToLower domain)
  (optTruthy brandInfo.brand_domain &&
      domainLower = jsToLower (brandInfo.brand_domain.getD "")) ||
  (optTruthy brandInfo.shopify_store &&
      domainLower = brandInfo.shopify_store.getD "" ++ ".myshopify.com") ||
  brandInfo.brand_aliases.any (fun ali =>
    let normalized := stripSeparators ali
    3 ≤ normalized.data.length && strContains domainLower normalized)

/-- Result of `fetchWithRedirects` (brand-discovery.ts): final URL after
`redirect: 'follow'`, the (two-element at most) chain, and the body. -/
structure FetchResult where
  final_url : String
  chain : List String
  html : String
deriving Repr, DecidableEq

/-- Result of `trackPresellChain` (src/lib/presell-tracker.ts), as
consumed by the cascade. -/
structure PresellChainResult where
  cta_url : Option String
  final_url : Option String
  chain : List String
deriving Repr, DecidableEq

/-- The network environment of one `checkDomainForBrand` run.  Every
field models one effectful collaborator; `none` is the source's
catch/`!response.ok` path. -/
structure CheckEnv where
  fetchWithRedirects : String → Option FetchResult
  products : String → Option (List String)
  trackPresell : String → PresellChainResult
  fetchHtml : String → Option String
  scrapingbee : String → Option String

structure DomainCheckOptions where
  scrapingbee_key : Option String
  domainAds : Option (List MetaAd)
  domainFullUrls : Option (List (String × ℕ))

/-- The zero-initialised `DomainBrandCheck` the cascade starts from. -/
def noMatchCheck (domain : String) : DomainBrandCheck :=
  ⟨domain, false, "none", 0, none, [], none, none, [], 0⟩

/-- `.sort((a, b) => b[1] - a[1])` — stable descending sort by count. -/
def sortCountDesc (l : List (String × ℕ)) : List (String × ℕ) :=
  jsSortBy (fun a b => b.2 ≤ a.2) l

/-- `.filter(([url]) => new URL(url).pathname !== '/')` with the
try/catch excluding unparsable URLs. -/
def urlsWithPath (l : List (String × ℕ)) : List (String × ℕ) :=
  l.filter (fun e =>
    match parseUrl e.1 with
    | some p => p.pathname ≠ "/"
    | none => false)

/-- The list of URLs step 6d feeds to the presell tracker: the homepage
plus up to 3 highest-count full URLs with non-root paths. -/
def presellUrlsToCheck (domain : String) (options : DomainCheckOptions) : List String :=
  let base := ["https://" ++ domain]
  match options.domainFullUrls with
  | none => base
  | some entries =>
    (((sortCountDesc (urlsWithPath entries)).take 3).map (·.1)).foldl
      (fun acc u => if u ∈ acc then acc else acc ++ [u]) base

/-- Step 6d: run the presell tracker on each URL; a CTA destination
matching the brand is `presell_cta` (0.85); a CTA destination that is a
Shopify store carrying the brand's vendor is `checkout_match`. -/
def presellLoop (env : CheckEnv) (brandInfo : BrandInfo) (base : DomainBrandCheck) :
    List String → Option DomainBrandCheck
  | [] => none
  | presellUrl :: rest =>
    let pr := env.trackPresell presellUrl
    if optTruthy pr.final_url then
      match extractDomainFromUrl (pr.final_url.getD "") with
      | some ctaFinalDomain =>
        if isDomainMatch ctaFinalDomain brandInfo then
          some { base with is_match := true, match_type := "presell_cta", confidence := 85,
                           shop_domain := some ctaFinalDomain, redirect_chain := pr.chain }
        else if optTruthy brandInfo.vendor_name then
          let vc := shopifyStoreHasVendor (env.products ctaFinalDomain) (brandInfo.vendor_name.getD "")
          if vc.found then
            some { base with is_match := true, match_type := "checkout_match",
                             confidence := vc.confidence, vendor_name := vc.matched_vendor,
                             shop_domain := some ctaFinalDomain, redirect_chain := pr.chain }
          else presellLoop env brandInfo base rest
        else presellLoop env brandInfo base rest
      | none => presellLoop env brandInfo base rest
    else presellLoop env brandInfo base rest

/-- Step 6f, checks 1 and 2: for each harvested full URL, a brand-domain
match of the URL's domain (`redirect`, 0.85) or a ≥4-char alias inside
the URL's path (`content_link`, 0.80). -/
def landingUrlLoop (brandInfo : BrandInfo) (base : DomainBrandCheck) :
    List (String × ℕ) → Option DomainBrandCheck
  | [] => none
  | (fullUrl, _) :: rest =>
    let check1 : Option DomainBrandCheck :=
      match extractDomainFromUrl fullUrl with
      | some urlDomain =>
        if isDomainMatch urlDomain brandInfo then
          some { base with is_match := true, match_type := "redirect", confidence := 85,
                           shop_domain := some urlDomain }
        else none
      | none => none
    match check1 with
    | some r => some r
    | none =>
      let check2 : Option DomainBrandCheck :=
        match parseUrl fullUrl with
        | some p =>
          match brandInfo.brand_aliases.find?
              (fun a => 4 ≤ a.data.length && strContains (jsToLower p.pathname) a) with
          | some _ =>
            some { base with is_match := true, match_type := "content_link", confidence := 80,
                             shop_domain := brandInfo.brand_domain }
          | none => none
        | none => none
      match check2 with
      | some r => some r
      | none => landingUrlLoop brandInfo base rest

/-- Step 6f, check 3: fetch up to two specific landing pages and re-run
the content checks at 0.75 / 0.65. -/
def landingFetchLoop (env : CheckEnv) (brandInfo : BrandInfo) (brandDomain : String)
    (base : DomainBrandCheck) : List String → Option DomainBrandCheck
  | [] => none
  | u :: rest =>
    match env.fetchHtml u with
    | some html =>
      let htmlLower := jsToLower html
      if strContains htmlLower brandDomain then
        some { base with is_match := true, match_type := "content_link", confidence := 75,
                         shop_domain := some brandDomain }
      else
        match brandInfo.brand_aliases.find?
            (fun a => 4 ≤ a.data.length && strContains htmlLower a) with
        | some ali =>
          some { base with is_match := true, match_type := "content_match", confidence := 65,
                           shop_domain := brandInfo.brand_domain, vendor_name := some ali }
        | none => landingFetchLoop env brandInfo brandDomain base rest
    | none => landingFetchLoop env brandInfo brandDomain base rest

/-- Dual-domain check, inner loop over one ad's captions. -/
def dualCaptionLoop (brandInfo : BrandInfo) (domainLower : String) (base : DomainBrandCheck) :
    List String → Option DomainBrandCheck
  | [] => none
  | caption :: rest =>
    match extractDomainFromCaption (some caption) with
    | some cd =>
      let captionDomain := jsToLower cd
      if captionDomain ≠ domainLower ∧ isDomainMatch captionDomain brandInfo then
        some { base with is_match := true, match_type := "content_link", confidence := 80,
                         shop_domain := some captionDomain }
      else dualCaptionLoop brandInfo domainLower base rest
    | none => dualCaptionLoop brandInfo domainLower base rest

/-- Dual-domain check: an ad that links to both this domain and the
brand's domain (`content_link`, 0.80). -/
def dualAdLoop (brandInfo : BrandInfo) (domainLower : String) (base : DomainBrandCheck) :
    List MetaAd → Option DomainBrandCheck
  | [] => none
  | ad :: rest =>
    match ad.ad_creative_link_captions with
    | some captions =>
      match dualCaptionLoop brandInfo domainLower base captions with
      | some r => some r
      | none => dualAdLoop brandInfo domainLower base rest
    | none => dualAdLoop brandInfo domainLower base rest

/-- The CTA-ish URL tokens of step 6g, check 4. -/
def ctaPatterns : List String :=
  ["shop", "kauf", "bestell", "checkout", "angebot", "buy", "order", "/go/", "/out/",
   "/click", "/redirect", "/track"]

/-- 6g target: the highest-count full URL with a real path, else the
homepage. -/
def sbTargetUrl (domain : String) (options : DomainCheckOptions) : String :=
  match options.domainFullUrls with
  | some entries =>
    if entries.length > 0 then
      let specific := sortCountDesc (entries.filter (fun e =>
        match parseUrl e.1 with
        | some p => 1 < p.pathname.data.length
        | none => false))
      match specific with
      | (u, _) :: _ => u
      | [] => "https://" ++ domain
    else "https://" ++ domain
  | none => "https://" ++ domain

/-- 6g check 1: any rendered link whose domain matches the brand. -/
def sbLinkLoop (brandInfo : BrandInfo) (base : DomainBrandCheck) :
    List String → Option DomainBrandCheck
  | [] => none
  | link :: rest =>
    match extractDomainFromUrl link with
    | some d =>
      if isDomainMatch d brandInfo then
        some { base with is_match := true, match_type := "presell_cta", confidence := 85,
                         shop_domain := some d }
      else sbLinkLoop brandInfo base rest
    | none => sbLinkLoop brandInfo base rest

/-- 6g check 4: resolve CTA-pattern links through redirects. -/
def sbCtaLoop (env : CheckEnv) (brandInfo : BrandInfo) (base : DomainBrandCheck) :
    List String → Option DomainBrandCheck
  | [] => none
  | ctaLink :: rest =>
    match env.fetchWithRedirects ctaLink with
    | some rr =>
      match extractDomainFromUrl rr.final_url with
      | some d =>
        if isDomainMatch d brandInfo then
          some { base with is_match := true, match_type := "presell_cta", confidence := 85,
                           shop_domain := some d, redirect_chain := rr.chain }
        else sbCtaLoop env brandInfo base rest
      | none => sbCtaLoop env brandInfo base rest
    | none => sbCtaLoop env brandInfo base rest

/-- Step 6g: the ScrapingBee rendered-page fallback. -/
def scrapingbeeStep (env : CheckEnv) (brandInfo : BrandInfo) (brandDomain : String)
    (domain : String) (options : DomainCheckOptions) (base : DomainBrandCheck) :
    Option DomainBrandCheck :=
  if optTruthy options.scrapingbee_key then
    match env.scrapingbee (sbTargetUrl domain options) with
    | some html =>
      let htmlLower := jsToLower html
      match sbLinkLoop brandInfo base (extractHrefs html) with
      | some r => some r
      | none =>
        if strContains htmlLower brandDomain then
          some { base with is_match := true, match_type := "content_link", confidence := 80,
                           shop_domain := some brandDomain }
        else
          match brandInfo.brand_aliases.find?
              (fun a => 4 ≤ a.data.length && strContains htmlLower a) with
          | some ali =>
            some { base with is_match := true, match_type := "content_match", confidence := 70,
                             shop_domain := brandInfo.brand_domain, vendor_name := some ali }
          | none =>
            let allLinks := (extractHrefs html).filter
              (fun l => strStarts l "http://" || strStarts l "https://")
            let ctaLinks := (allLinks.filter
              (fun l => ctaPatterns.any (fun p => strContains (jsToLower l) p))).take 3
            sbCtaLoop env brandInfo base ctaLinks
    | none => none
  else none

/-- The HTML-based checks of steps 6c and 6d's preamble: Shopify vendor
match, literal brand-domain containment (`content_link`, 0.75), and
alias containment (`content_match`, 0.60). -/
def htmlChecks (env : CheckEnv) (brandInfo : BrandInfo) (brandDomain domain : String)
    (base : DomainBrandCheck) (html : String) : Option DomainBrandCheck :=
  let isShopify := strContains (jsToLower html) "cdn.shopify.com"
  let vendorHit : Option DomainBrandCheck :=
    if isShopify && optTruthy brandInfo.vendor_name then
      let vc := shopifyStoreHasVendor (env.products domain) (brandInfo.vendor_name.getD "")
      if vc.found then
        some { base with is_match := true, match_type := "shopify_vendor",
                         confidence := vc.confidence, vendor_name := vc.matched_vendor,
                         shop_domain := some domain }
      else none
    else none
  match vendorHit with
  | some r => some r
  | none =>
    if strContains html brandDomain then
      some { base with is_match := true, match_type := "content_link", confidence := 75,
                       shop_domain := some brandDomain }
    else
      match brandInfo.brand_aliases.find?
          (fun a => 4 ≤ a.data.length && strContains (jsToLower html) a) with
      | some ali =>
        some { base with is_match := true, match_type := "content_match", confidence := 60,
                         shop_domain := brandInfo.brand_domain, vendor_name := some ali }
      | none => none

/-- Steps 6b–6d (everything inside `if (fetchResult)`). -/
def fetchedSteps (env : CheckEnv) (domain : String) (brandInfo : BrandInfo)
    (options : DomainCheckOptions) (brandDomain : String) (base : DomainBrandCheck)
    (fr : FetchResult) : Option DomainBrandCheck :=
  let redirectHit : Option DomainBrandCheck :=
    match extractDomainFromUrl fr.final_url with
    | some finalDomain =>
      if isDomainMatch finalDomain brandInfo then
        some { base with is_match := true, match_type := "redirect", confidence := 90,
                         shop_domain := some finalDomain }
      else none
    | none => none
  match redirectHit with
  | some r => some r
  | none =>
    match (if fr.html ≠ "" then htmlChecks env brandInfo brandDomain domain base fr.html else none) with
    | some r => some r
    | none => presellLoop env brandInfo base (presellUrlsToCheck domain options)

/-- Steps 6f, the dual-domain ad check, and 6g (run whether or not the
initial fetch succeeded), falling through to the accumulated no-match
result. -/
def postFetchSteps (env : CheckEnv) (domain : String) (brandInfo : BrandInfo)
    (options : DomainCheckOptions) (brandDomain : String) (base : DomainBrandCheck) :
    DomainBrandCheck :=
  let step6f : Option DomainBrandCheck :=
    match options.domainFullUrls with
    | some entries =>
      if entries.length > 0 then
        match landingUrlLoop brandInfo base entries with
        | some r => some r
        | none =>
          landingFetchLoop env brandInfo brandDomain base
            (((sortCountDesc (urlsWithPath entries)).take 2).map (·.1))
      else none
    | none => none
  match step6f with
  | some r => r
  | none =>
    let dualHit : Option DomainBrandCheck :=
      match options.domainAds with
      | some ads =>
        if ads.length > 0 then dualAdLoop brandInfo (jsToLower domain) base ads else none
      | none => none
    match dualHit with
    | some r => r
    | none =>
      match scrapingbeeStep env brandInfo brandDomain domain options base with
      | some r => r
      | none => base

/-- `checkDomainForBrand` (src/lib/brand-discovery.ts, lines 1147–1575):
the ordered verification cascade for one candidate domain. -/
def checkDomainForBrand (env : CheckEnv) (domain : String) (brandInfo : BrandInfo)
    (options : DomainCheckOptions) : DomainBrandCheck :=
  let result := noMatchCheck domain
  if ¬ optTruthy brandInfo.brand_domain then result
  else
    let brandDomain := jsToLower (brandInfo.brand_domain.getD "")
    if jsToLower domain = brandDomain then
      { result with is_match := true, match_type := "direct", confidence := 100,
                    shop_domain := some domain }
    else
      match env.fetchWithRedirects domain with
      | some fr =>
        let base := { result with final_url := some fr.final_url, redirect_chain := fr.chain }
        match fetchedSteps env domain brandInfo options brandDomain base fr with
        | some r => r
        | none => postFetchSteps env domain brandInfo options brandDomain base
      | none => postFetchSteps env domain brandInfo options brandDomain result

/-! ### Step 5: extractUniqueDomains (src/lib/brand-discovery.ts,
lines 1037–1123) -/

/-- JS `s.endsWith(pat)`. -/
def strEnds (s pat : String) : Bool := listIsPrefixOf pat.data.reverse s.data.reverse

/-- Per-page aggregation record of `allPages`. -/
structure PageAgg where
  name : String
  count : ℕ
  domains : List String
deriving Repr, DecidableEq

/-- The mutable state of `extractUniqueDomains`. -/
structure ExtractState where
  domainPageMap : List (String × List String)
  domainAdCount : List (String × ℕ)
  allPages : List (String × PageAgg)
  domainFullUrls : List (String × List (String × ℕ))
  brandDomains : List String
deriving Repr, DecidableEq

/-- The platform-domain exclusion set local to `extractUniqueDomains`. -/
def excludedDomains : List String :=
  ["facebook.com", "fb.com", "instagram.com", "meta.com",
   "google.com", "youtube.com", "twitter.com", "pinterest.com",
   "tiktok.com", "bit.ly", "linktr.ee", "l.facebook.com"]

/-- One caption of one ad inside `extractUniqueDomains`'s nested loop. -/
def processCaption (brandInfo : BrandInfo) (pageId : String) (st : ExtractState)
    (caption : String) : ExtractState :=
  match extractDomainFromCaption (some caption) with
  | none => st
  | some domain =>
    let domainLower := jsToLower domain
    let st1 :=
      match extractFullUrlFromCaption (some caption) with
      | some fullUrl =>
        let urlMap := (alGet st.domainFullUrls domainLower).getD []
        { st with domainFullUrls := (alSet st.domainFullUrls domainLower
            (alSet urlMap fullUrl ((alGet urlMap fullUrl).getD 0 + 1))) }
      | none => st
    if domainLower ∈ st1.brandDomains then st1
    else if domainLower ∈ excludedDomains ∨
        excludedDomains.any (fun ed => strEnds domainLower ("." ++ ed)) then st1
    else if brandInfo.brand_aliases.any (fun ali => strContains domainLower (stripSpaces ali)) then
      { st1 with brandDomains := setAdd st1.brandDomains domainLower }
    else
      let existingPages := (alGet st1.domainPageMap domainLower).getD []
      let pages' := if pageId ∈ existingPages then existingPages else existingPages ++ [pageId]
      let st2 := { st1 with
        domainPageMap := alSet st1.domainPageMap domainLower pages',
        domainAdCount :=
          alSet st1.domainAdCount domainLower ((alGet st1.domainAdCount domainLower).getD 0 + 1) }
      match alGet st2.allPages pageId with
      | some pa =>
        { st2 with allPages := (alSet st2.allPages pageId
            { pa with domains := setAdd pa.domains domainLower }) }
      | none => st2

/-- One ad inside `extractUniqueDomains`'s outer loop. -/
def processAd (brandInfo : BrandInfo) (st : ExtractState) (ad : MetaAd) : ExtractState :=
  let pageId := if optTruthy ad.page_id then ad.page_id.getD "" else "unknown"
  let pageName := if optTruthy ad.page_name then ad.page_name.getD "" else "Unknown"
  let pageInfo := (alGet st.allPages pageId).getD ⟨pageName, 0, []⟩
  let st0 := { st with allPages := alSet st.allPages pageId { pageInfo with count := pageInfo.count + 1 } }
  match ad.ad_creative_link_captions with
  | some captions => captions.foldl (processCaption brandInfo pageId) st0
  | none => st0

/-- The initial `brandDomains` exclusion set. -/
def initialBrandDomains (brandInfo : BrandInfo) : List String :=
  if optTruthy brandInfo.brand_domain then
    let s1 := setAdd [] (jsToLower (brandInfo.brand_domain.getD ""))
    if optTruthy brandInfo.shopify_store then
      setAdd s1 (brandInfo.shopify_store.getD "" ++ ".myshopify.com")
    else s1
  else []

/-- `extractUniqueDomains`: per-domain page lists, ad counts, page
aggregation and harvested full URLs, excluding the brand's own domains,
platform domains, and alias-containing domains. -/
def extractUniqueDomains (ads : List MetaAd) (brandInfo : BrandInfo) : ExtractState :=
  ads.foldl (processAd brandInfo) ⟨[], [], [], [], initialBrandDomains brandInfo⟩

/-! ### Step 7: buildDiscoveryResult (src/lib/brand-discovery.ts,
lines 1609–1856) and makeErrorResponse (lines 1919–1939) -/

/-- `a || b` on nullable strings (JS truthiness chain). -/
def jsOrStr (o : Option String) (d : String) : String :=
  if optTruthy o then o.getD "" else d

/-- `[...new Set(l)]` — deduplicate preserving first occurrence. -/
def dedupList (l : List String) : List String := l.foldl setAdd []

/-- The merge step of the third-party page map: one `(match, pageId)`
pair of the nested loop at lines 1650–1680. -/
def insertThirdPartyPage (allPages : List (String × PageAgg))
    (pageNameLookup : List (String × String))
    (acc : List (String × ThirdPartyPageInfo)) (m : DomainBrandCheck) (pageId : String) :
    List (String × ThirdPartyPageInfo) :=
  match alGet acc pageId with
  | some existing =>
    let e1 :=
      if existing.confidence < m.confidence then
        { existing with connection_type := m.match_type, confidence := m.confidence }
      else existing
    let e2 :=
      if m.domain ∈ e1.domains_used then e1
      else { e1 with domains_used := e1.domains_used ++ [m.domain] }
    alSet acc pageId { e2 with ad_count := e2.ad_count + m.ad_count }
  | none =>
    let pageName :=
      jsOrStr ((alGet allPages pageId).map (·.name)) (jsOrStr (alGet pageNameLookup pageId) "Unknown")
    alSet acc pageId
      ⟨pageId, pageName, m.ad_count, m.match_type, m.confidence, m.domain, [m.domain]⟩

/-- The nested loop building `thirdPartyPagesMap`, skipping official
page ids. -/
def buildThirdPartyMap (brandInfo : BrandInfo) (allPages : List (String × PageAgg))
    (pageNameLookup : List (String × String)) (matchedDomains : List DomainBrandCheck) :
    List (String × ThirdPartyPageInfo) :=
  matchedDomains.foldl
    (fun acc m =>
      m.page_ids.foldl
        (fun acc2 pageId =>
          if pageId ∈ brandInfo.official_page_ids then acc2
          else insertThirdPartyPage allPages pageNameLookup acc2 m pageId)
        acc)
    []

/-- `.sort((a, b) => b.confidence - a.confidence || b.ad_count - a.ad_count)`. -/
def thirdPartySortLe (a b : ThirdPartyPageInfo) : Bool :=
  if a.confidence = b.confidence then b.ad_count ≤ a.ad_count
  else b.confidence < a.confidence

/-- `pageNameLookup` built from brand ads then keyword ads. -/
def buildPageNameLookup (brandAds allAds : List MetaAd) : List (String × String) :=
  (brandAds ++ allAds).foldl
    (fun acc ad =>
      if optTruthy ad.page_id ∧ optTruthy ad.page_name ∧ (alGet acc (ad.page_id.getD "")).isNone then
        alSet acc (ad.page_id.getD "") (ad.page_name.getD "")
      else acc)
    []

/-- One iteration of the domain categorisation loop (lines 1694–1706). -/
def categorizeStep (acc : List String × List String × List String)
    (m : DomainBrandCheck) : List String × List String × List String :=
  let (presell, redirect, shop) := acc
  if m.match_type = "presell_cta" ∨ m.match_type = "content_link" ∨
      m.match_type = "content_match" ∨ m.match_type = "checkout_match" then
    (presell ++ [m.domain], redirect, shop)
  else if m.match_type = "redirect" then
    (presell, redirect ++ [m.domain], shop)
  else if m.match_type = "shopify_vendor" then
    (presell, redirect, shop ++ [m.domain])
  else if m.match_type = "direct" then
    (presell, redirect, shop ++ [m.domain])
  else acc

/-- The domain categorisation loop (lines 1694–1706). -/
def categorizeDomains (matchedDomains : List DomainBrandCheck) :
    List String × List String × List String :=
  matchedDomains.foldl categorizeStep ([], [], [])

/-- The `domainFullUrls` enrichment with redirect-chain results
(lines 1723–1754). -/
def enrichUrlMap (domainFullUrls : List (String × List (String × ℕ)))
    (matchedDomains : List DomainBrandCheck) : List (String × List (String × ℕ)) :=
  matchedDomains.foldl
    (fun acc m =>
      let domainLower := jsToLower m.domain
      let acc1 :=
        match m.final_url with
        | some fu =>
          match parseUrl fu with
          | some p =>
            if p.pathname ≠ "/" ∧ p.pathname ≠ "" then
              let urlMap := (alGet acc domainLower).getD []
              alSet acc domainLower (alSet urlMap fu ((alGet urlMap fu).getD 0 + 1))
            else acc
          | none => acc
        | none => acc
      m.redirect_chain.foldl
        (fun acc2 chainUrl =>
          match parseUrl chainUrl with
          | some p =>
            let chainDomain := jsToLower (stripWww p.host)
            if p.pathname ≠ "/" ∧ p.pathname ≠ "" ∧ chainDomain = domainLower then
              let urlMap := (alGet acc2 domainLower).getD []
              alSet acc2 domainLower (alSet urlMap chainUrl ((alGet urlMap chainUrl).getD 0 + 1))
            else acc2
          | none => acc2)
        acc1)
    domainFullUrls

/-- One `domain_urls` record entry (lines 1756–1774). -/
def domainUrlsFor (urlMap : List (String × ℕ)) : List (String × ℕ) :=
  (sortCountDesc (urlsWithPath urlMap)).take 10

/-- One `top_landing_pages` entry (lines 1777–1812). -/
def landingPageFor (brandInfo : BrandInfo)
    (domainFullUrls : List (String × List (String × ℕ))) (m : DomainBrandCheck) :
    LandingPageInfo :=
  let captionUrls := alGet domainFullUrls (jsToLower m.domain)
  let defaultUrl := "https://" ++ m.domain
  let best :=
    match captionUrls with
    | some urlMap =>
      if urlMap.length > 0 then
        match sortCountDesc (urlsWithPath urlMap) with
        | (u, _) :: _ =>
          match parseUrl u with
          | some p => (u, p.pathname ++ p.search)
          | none => (u, "/")
        | [] => (defaultUrl, "/")
      else (defaultUrl, "/")
    | none =>
      match m.final_url with
      | some fu =>
        if fu ≠ "" then
          match parseUrl fu with
          | some p => if p.pathname ≠ "/" then (fu, p.pathname ++ p.search) else (defaultUrl, "/")
          | none => (defaultUrl, "/")
        else (defaultUrl, "/")
      | none => (defaultUrl, "/")
  { url := best.1, count := m.ad_count, domain := m.domain, full_path := best.2,
    leads_to :=
      (if optTruthy m.shop_domain then m.shop_domain
       else if optTruthy brandInfo.brand_domain then brandInfo.brand_domain else none),
    extraction_method := m.match_type }

/-- `buildDiscoveryResult` (src/lib/brand-discovery.ts, lines 1609–1856):
assembles the final report from the verified matches.  The wall-clock
`scan_duration_seconds` field is not modelled. -/
def buildDiscoveryResult (brandName : String) (brandInfo : BrandInfo)
    (matchedDomains : List DomainBrandCheck) (allAds : List MetaAd)
    (allPages : List (String × PageAgg)) (keywords : List String)
    (detectionMethods : List (String × ℕ)) (totalDomainsChecked : ℕ)
    (brandAds : List MetaAd) (domainFullUrls : List (String × List (String × ℕ))) :
    BrandDiscoveryResponse :=
  let officialPages : List PageInfo :=
    brandInfo.official_page_ids.map (fun pageId =>
      let pageData := alGet allPages pageId
      ⟨pageId, jsOrStr (pageData.map (·.name)) brandName, ((pageData.map (·.count)).getD 0), true⟩)
  let pageNameLookup := buildPageNameLookup brandAds allAds
  let thirdPartyPages :=
    jsSortBy thirdPartySortLe
      ((buildThirdPartyMap brandInfo allPages pageNameLookup matchedDomains).map (·.2))
  let (presellDomains, redirectDomains, shopDomains0) := categorizeDomains matchedDomains
  let shopDomains :=
    if optTruthy brandInfo.brand_domain ∧ brandInfo.brand_domain.getD "" ∉ shopDomains0 then
      brandInfo.brand_domain.getD "" :: shopDomains0
    else shopDomains0
  let allDomains := dedupList (presellDomains ++ redirectDomains ++ shopDomains)
  let allRelevantDomains :=
    let base := dedupList (presellDomains ++ redirectDomains ++ shopDomains)
    if optTruthy brandInfo.brand_domain ∧ brandInfo.brand_domain.getD "" ∉ base then
      base ++ [brandInfo.brand_domain.getD ""]
    else base
  let enriched := enrichUrlMap domainFullUrls matchedDomains
  let domain_urls :=
    allRelevantDomains.foldl
      (fun acc d =>
        match alGet enriched (jsToLower d) with
        | some urlMap =>
          if urlMap.length > 0 then
            let urls := domainUrlsFor urlMap
            if urls.length > 0 then acc ++ [(d, urls)] else acc
          else acc
        | none => acc)
      []
  let landingPages :=
    (jsSortBy (fun a b => b.count ≤ a.count)
      ((matchedDomains.filter (fun m => m.domain ≠ "")).map
        (landingPageFor brandInfo enriched))).take 20
  { success := true
    status := "completed"
    brand := brandName
    brand_domain := brandInfo.brand_domain
    brand_platform := brandInfo.platform
    pages := ⟨officialPages, thirdPartyPages⟩
    domains := ⟨presellDomains, redirectDomains, shopDomains, allDomains⟩
    domain_urls := domain_urls
    top_landing_pages := landingPages
    presell_chains :=
      (matchedDomains.filter (fun m => m.match_type = "presell_cta" ∧ m.redirect_chain.length > 0)).map
        (fun m => ⟨m.domain, m.redirect_chain, jsOrStr m.shop_domain (jsOrStr brandInfo.brand_domain "")⟩)
    scan_stats :=
      ⟨keywords, allAds.length, totalDomainsChecked, matchedDomains.length, detectionMethods⟩
    error := none }

/-- `makeErrorResponse` (lines 1919–1939). -/
def makeErrorResponse (brand : String) (error : String) : BrandDiscoveryResponse :=
  { success := false
    status := "error"
    brand := brand
    brand_domain := none
    brand_platform := none
    pages := ⟨[], []⟩
    domains := ⟨[], [], [], []⟩
    domain_urls := []
    top_landing_pages := []
    presell_chains := []
    scan_stats := ⟨[], 0, 0, 0, []⟩
    error := some error }

/-! ### Step 2: findBrandDomain (src/lib/brand-discovery.ts,
lines 715–840) -/

/-- The outcome of `detectShopifyStore` as consumed by
`findBrandDomain`; the whole call is wrapped in try/catch, so the
environment returns `none` on failure. -/
structure ShopifyDetection where
  is_shopify : Bool
  platform : String
  store_name : Option String
  myshopify_domain : Option String
  vendor_name : Option String
  og_site_name : Option String
deriving Repr, DecidableEq

/-- Everything before the first occurrence of the substring `sep`
(JS `s.split(sep)[0]`). -/
def takeUntilSub (sep : List Char) : List Char → List Char
  | [] => []
  | c :: rest =>
    if listIsPrefixOf sep (c :: rest) then [] else c :: takeUntilSub sep rest

/-- JS `s.replace(/\s*[-–|·—].*$/, '')`: everything before the first
subtitle-separator character, right-trimmed. -/
def stripSubtitle (s : String) : String :=
  let sepChars : List Char := ['-', '–', '|', '·', '—']
  ⟨((s.data.takeWhile (· ∉ sepChars)).reverse.dropWhile jsIsSpace).reverse⟩

/-- JS `s.replace(/\.[^.]+$/, '')` — drop the final dot-segment. -/
def dropTld (s : String) : String :=
  let rev := s.data.reverse
  let tail := rev.takeWhile (· ≠ '.')
  if tail.length ≥ 1 ∧ tail.length < rev.length then ⟨s.data.take (s.data.length - tail.length - 1)⟩
  else s

/-- Remove the first occurrence of substring `sub` (JS
`s.replace('sub', '')`). -/
def removeFirstSub (sub : List Char) : List Char → List Char
  | [] => []
  | c :: rest =>
    if listIsPrefixOf sub (c :: rest) then (c :: rest).drop sub.length
    else c :: removeFirstSub sub rest

/-- The alias set generated from the brand name (lines 719–735). -/
def brandNameAliases (brandName : String) : List String :=
  let fullNameLower := jsTrim (jsToLower brandName)
  let a0 := setAdd [] fullNameLower
  let separators := [" - ", " – ", " | ", " · ", " — "]
  let a1 := separators.foldl
    (fun acc sep =>
      if strContains fullNameLower sep then
        let firstPart := jsTrim ⟨takeUntilSub sep.data fullNameLower.data⟩
        if 3 ≤ firstPart.data.length then setAdd acc firstPart else acc
      else acc)
    a0
  let shortName := jsTrim (stripSubtitle fullNameLower)
  if 3 ≤ shortName.data.length then setAdd a1 shortName else a1

/-- The page-vote map of `findBrandDomain`: `pageId ↦ (name, count)`. -/
def buildPageVoteMap (brandAds : List MetaAd) : List (String × (String × ℕ)) :=
  brandAds.foldl
    (fun acc ad =>
      if optTruthy ad.page_id ∧ optTruthy ad.page_name then
        match alGet acc (ad.page_id.getD "") with
        | some (n, c) => alSet acc (ad.page_id.getD "") (n, c + 1)
        | none => alSet acc (ad.page_id.getD "") (ad.page_name.getD "", 1)
      else acc)
    []

/-- The caption-domain vote map of `findBrandDomain`. -/
def buildDomainVoteMap (brandAds : List MetaAd) : List (String × ℕ) :=
  brandAds.foldl
    (fun acc ad =>
      match ad.ad_creative_link_captions with
      | some captions =>
        captions.foldl
          (fun acc2 caption =>
            match extractDomainFromCaption (some caption) with
            | some d => alSet acc2 d ((alGet acc2 d).getD 0 + 1)
            | none => acc2)
          acc
      | none => acc)
    []

/-- `findBrandDomain` (lines 715–840): alias generation, official-page
detection, caption-domain plurality vote, and Shopify enrichment (the
`detectShopifyStore` call is the abstract `detectShopify` argument). -/
def findBrandDomain (detectShopify : String → Option ShopifyDetection)
    (brandName : String) (brandAds : List MetaAd) : BrandInfo :=
  let aliases := brandNameAliases brandName
  let info0 : BrandInfo := ⟨brandName, none, aliases, none, none, none, [], []⟩
  if brandAds.length = 0 then info0
  else
    let brandLower := jsToLower brandName
    let pageMap := buildPageVoteMap brandAds
    let officialIds0 := (pageMap.filter (fun p =>
      strContains (jsToLower p.2.1) brandLower ∨
      strContains brandLower (stripSpaces (jsToLower p.2.1)))).map (·.1)
    let officialIds :=
      if officialIds0.length = 0 ∧ pageMap.length > 0 then
        match jsSortBy (fun a b => b.2.2 ≤ a.2.2) pageMap with
        | top :: _ => [top.1]
        | [] => []
      else officialIds0
    let domains := buildDomainVoteMap brandAds
    let (brandDomain, aliases1) :=
      if domains.length > 0 then
        match jsSortBy (fun a b => b.2 ≤ a.2) domains with
        | (d, _) :: _ =>
          let domainWithoutTld := jsToLower (dropTld d)
          if 3 ≤ domainWithoutTld.data.length ∧ domainWithoutTld ∉ aliases then
            (some d, aliases ++ [domainWithoutTld])
          else (some d, aliases)
        | [] => (none, aliases)
      else (none, aliases)
    let info1 := { info0 with official_page_ids := officialIds, brand_domain := brandDomain, brand_aliases := aliases1 }
    if optTruthy info1.brand_domain then
      match detectShopify (info1.brand_domain.getD "") with
      | some shopify =>
        let info2 := { info1 with platform := some shopify.platform }
        if shopify.is_shopify then
          let info3 := { info2 with shopify_store := shopify.store_name, vendor_name := shopify.vendor_name }
          let al1 :=
            if optTruthy shopify.myshopify_domain then
              info3.brand_aliases ++
                [jsToLower ⟨removeFirstSub ".myshopify.com".data (shopify.myshopify_domain.getD "").data⟩]
            else info3.brand_aliases
          let al2 :=
            if optTruthy shopify.vendor_name then al1 ++ [jsToLower (shopify.vendor_name.getD "")]
            else al1
          let al3 :=
            if optTruthy shopify.og_site_name then al2 ++ [jsToLower (shopify.og_site_name.getD "")]
            else al2
          { info3 with brand_aliases := dedupList al3 }
        else { info2 with brand_aliases := dedupList info2.brand_aliases }
      | none => { info1 with brand_aliases := dedupList info1.brand_aliases }
    else { info1 with brand_aliases := dedupList info1.brand_aliases }

/-- The early-exit of `discoverBrand` right after domain resolution
(lines 138–142): no resolvable brand domain terminates the run with the
explicit error report. -/
def discoverResolveBrand (detectShopify : String → Option ShopifyDetection)
    (brandName : String) (brandAds : List MetaAd) :
    Except BrandDiscoveryResponse BrandInfo :=
  let brandInfo := findBrandDomain detectShopify brandName brandAds
  if ¬ optTruthy brandInfo.brand_domain then
    Except.error (makeErrorResponse brandName "Could not find brand domain from Meta ads")
  else Except.ok brandInfo

/-! ### Step 6 under the run deadline (src/lib/brand-discovery.ts,
lines 563–699) -/

/-- `DOMAIN_CHECK_CONCURRENCY`. -/
def DOMAIN_CHECK_CONCURRENCY : ℕ := 5

/-- `MIN_CONFIDENCE` (0.70), in hundredths. -/
def MIN_CONFIDENCE : ℕ := 70

/-- The two `pastDeadline` readings that gate step 6: `preStep6` is
`pastDeadline(10000)` right before the stage, `batchAt i` is the
`pastDeadline(3000)` reading at the start of batch `i`.  This oracle is
the wall clock of one concrete run made explicit. -/
structure DeadlineOracle where
  preStep6 : Bool
  batchAt : ℕ → Bool

/-- The batch loop of step 6: processes `DOMAIN_CHECK_CONCURRENCY`-sized
batches, stopping as soon as the deadline oracle fires; returns the
matching checks (with page ids / ad counts attached, as the caller does)
and the number of domains actually checked.  Fuel is the list length. -/
def runStep6Loop (batchAt : ℕ → Bool) (check : String → DomainBrandCheck)
    (pageMap : List (String × List String)) (adCount : List (String × ℕ)) :
    ℕ → ℕ → List String → List DomainBrandCheck × ℕ
  | _, _, [] => ([], 0)
  | 0, _, _ :: _ => ([], 0)
  | fuel + 1, bIdx, d :: ds =>
    if batchAt bIdx then ([], 0)
    else
      let batch := (d :: ds).take DOMAIN_CHECK_CONCURRENCY
      let results := batch.map (fun dom =>
        let c := check dom
        { c with page_ids := (alGet pageMap dom).getD [], ad_count := (alGet adCount dom).getD 0 })
      let rest := runStep6Loop batchAt check pageMap adCount fuel (bIdx + 1)
        ((d :: ds).drop DOMAIN_CHECK_CONCURRENCY)
      (results.filter (·.is_match) ++ rest.1, batch.length + rest.2)

/-- The `detectionMethods` tally over the pre-threshold matches. -/
def tallyDetectionMethods (matched : List DomainBrandCheck) : List (String × ℕ) :=
  matched.foldl (fun acc m => alSet acc m.match_type ((alGet acc m.match_type).getD 0 + 1)) []

/-- The sort of candidate domains: priority domains first, then by ad
count (lines 434–440). -/
def domainSortLe (priorityDomains : List String) (adCount : List (String × ℕ)) (a b : String) :
    Bool :=
  let aP : ℕ := if jsToLower a ∈ priorityDomains then 1 else 0
  let bP : ℕ := if jsToLower b ∈ priorityDomains then 1 else 0
  if aP ≠ bP then bP < aP
  else (alGet adCount b).getD 0 ≤ (alGet adCount a).getD 0

/-- Steps 5 (ordering and `max_domains_to_check` slicing), 6 (deadline-
gated verification) and 7 (threshold filter and report assembly) of
`discoverBrand`, with the per-domain cascade abstracted to `check` and
the wall clock to `oracle`.  `maxDomainsToCheck = 0` means unlimited. -/
def discoverVerifyAndBuild (brandName : String) (brandInfo : BrandInfo)
    (st : ExtractState) (allKeywords : List String) (allAds brandAds : List MetaAd)
    (priorityDomains : List String) (maxDomainsToCheck : ℕ)
    (oracle : DeadlineOracle) (check : String → DomainBrandCheck) :
    BrandDiscoveryResponse × ℕ :=
  let domains0 := st.domainPageMap.map (·.1)
  let sorted := jsSortBy (domainSortLe priorityDomains st.domainAdCount) domains0
  let sliced :=
    if maxDomainsToCheck ≠ 0 ∧ maxDomainsToCheck < sorted.length then
      sorted.take maxDomainsToCheck
    else sorted
  let selected := if oracle.preStep6 then [] else sliced
  let r6 := runStep6Loop oracle.batchAt check st.domainPageMap st.domainAdCount
    selected.length 0 selected
  let matchedDomains := r6.1
  let allMatches := matchedDomains.filter (fun m => ¬ (m.confidence < MIN_CONFIDENCE))
  let detectionMethods := tallyDetectionMethods matchedDomains
  (buildDiscoveryResult brandName brandInfo allMatches allAds st.allPages allKeywords
    detectionMethods selected.length brandAds st.domainFullUrls, r6.2)

/-- The candidate list that step 6 actually hands to the batch loop:
sorted, sliced to `max_domains_to_check`, and emptied when the deadline
fires before step 6 — the same `let` chain as in
`discoverVerifyAndBuild`. -/
def step6Selected (st : ExtractState) (priorityDomains : List String)
    (maxDomainsToCheck : ℕ) (oracle : DeadlineOracle) : List String :=
  let domains0 := st.domainPageMap.map (·.1)
  let sorted := jsSortBy (domainSortLe priorityDomains st.domainAdCount) domains0
  let sliced :=
    if maxDomainsToCheck ≠ 0 ∧ maxDomainsToCheck < sorted.length then
      sorted.take maxDomainsToCheck
    else sorted
  if oracle.preStep6 then [] else sliced

/-- The verification results a run actually collects in step 6 (the
`is_match` ones, before the confidence threshold). -/
def step6Matched (st : ExtractState) (priorityDomains : List String)
    (maxDomainsToCheck : ℕ) (oracle : DeadlineOracle)
    (check : String → DomainBrandCheck) : List DomainBrandCheck :=
  (runStep6Loop oracle.batchAt check st.domainPageMap st.domainAdCount
      (step6Selected st priorityDomains maxDomainsToCheck oracle).length 0
      (step6Selected st priorityDomains maxDomainsToCheck oracle)).1

/-- The run's verification results that also pass the confidence
threshold — exactly the `allMatches` list step 7 hands to
`buildDiscoveryResult`. -/
def step6AllMatches (st : ExtractState) (priorityDomains : List String)
    (maxDomainsToCheck : ℕ) (oracle : DeadlineOracle)
    (check : String → DomainBrandCheck) : List DomainBrandCheck :=
  (step6Matched st priorityDomains maxDomainsToCheck oracle check).filter
    (fun m => ¬ (m.confidence < MIN_CONFIDENCE))

/-! ### The worker's `/api/discover` handler (src/unnamed/part_001,
lines 224–290) -/

/-- The outbound calls the discover branch can make, in order. -/
inductive WorkerEffect where
  | cacheRead : WorkerEffect
  | startDiscovery : WorkerEffect
deriving Repr, DecidableEq

structure WorkerResponse where
  status : ℕ
  body : String
deriving Repr, DecidableEq

/-- The `POST /api/discover` branch of `handleRequest`: its decision
logic with the outbound calls reified as an ordered effect list.
`cacheHit` / `activeJobForBrand` parameterise the states of the cache
and the in-memory job map. -/
def handleDiscoverPost (brand : Option String) (metaTokenConfigured : Bool)
    (supabaseConfigured forceRefresh : Bool) (cacheHit : Option String)
    (activeJobForBrand : Option String) : List WorkerEffect × WorkerResponse :=
  if ¬ optTruthy brand then ([], ⟨400, "brand is required"⟩)
  else if ¬ metaTokenConfigured then ([], ⟨500, "META_ACCESS_TOKEN not configured"⟩)
  else if supabaseConfigured ∧ ¬ forceRefresh then
    match cacheHit with
    | some cached => ([.cacheRead], ⟨200, cached⟩)
    | none =>
      match activeJobForBrand with
      | some jobId => ([.cacheRead], ⟨200, "processing " ++ jobId⟩)
      | none => ([.cacheRead, .startDiscovery], ⟨202, "processing"⟩)
  else
    match activeJobForBrand with
    | some jobId => ([], ⟨200, "processing " ++ jobId⟩)
    | none => ([.startDiscovery], ⟨202, "processing"⟩)

/-! ### Keyword Generator (src/unnamed part: keyword-generator.ts) -/

/-- The German stop-word set of the keyword generator. -/
def GERMAN_STOP_WORDS : List String :=
  ["der", "die", "das", "den", "dem", "des", "ein", "eine", "einer", "eines", "einem", "einen",
   "und", "oder", "aber", "doch", "noch", "auch", "nur", "schon", "sehr", "mehr", "als", "ich",
   "du", "er", "sie", "es", "wir", "ihr", "sich", "mich", "dich", "uns", "euch", "mir", "dir",
   "ihm", "ihr", "mein", "dein", "sein", "unser", "euer", "ihrer", "ist", "sind", "war",
   "waren", "wird", "werden", "hat", "haben", "hatte", "hatten", "kann", "können", "soll",
   "sollen", "will", "wollen", "muss", "müssen", "darf", "dürfen", "mit", "von", "aus", "bei",
   "nach", "für", "auf", "über", "unter", "vor", "hinter", "zwischen", "neben", "ohne",
   "gegen", "durch", "bis", "seit", "während", "wegen", "nicht", "kein", "keine", "keinen",
   "keinem", "keiner", "nichts", "nie", "niemals", "wenn", "dann", "weil", "dass", "damit",
   "obwohl", "während", "bevor", "nachdem", "wo", "wie", "was", "wer", "wann", "warum",
   "welche", "welcher", "welches", "hier", "dort", "da", "jetzt", "heute", "morgen", "gestern",
   "immer", "oft", "mal", "so", "denn", "also", "zum", "zur", "am", "im", "vom", "beim", "ins",
   "alle", "alles", "jede", "jeder", "jedes", "jeden", "jedem", "diese", "dieser", "dieses",
   "diesen", "diesem", "andere", "anderer", "anderes", "anderen", "anderem", "ganz", "viel",
   "viele", "vielen", "vieler", "wenig", "wenige", "neue", "neuen", "neuer", "neues", "neuem",
   "erste", "ersten", "erster", "erstes", "erstem", "gute", "guten", "guter", "gutes", "gutem",
   "gut", "besser", "beste", "besten", "große", "großen", "großer", "großes", "großem",
   "kleine", "kleinen", "kleiner", "kleines", "kleinem", "eigene", "eigenen", "eigener",
   "eigenes", "deine", "deinen", "deiner", "deines", "deinem", "ihre", "ihren", "ihrem",
   "ihres", "unsere", "unseren", "unserem", "unseres", "einfach", "schnell", "direkt",
   "sofort", "richtig", "wissen", "weiß", "kennen", "machen", "macht", "gehen", "geht",
   "kommen", "kommt", "sagen", "sagt", "geben", "gibt", "nehmen", "nimmt", "stehen", "steht",
   "lassen", "lässt", "finden", "findet", "bleiben", "bleibt", "liegen", "liegt", "bringen",
   "bringt", "leben", "lebt", "fahren", "fährt", "meinen", "meint", "fragen", "fragt", "kennt",
   "stellt", "zeigt", "führt", "sprechen", "spricht", "halten", "hält", "spielen", "spielt",
   "arbeiten", "brauchen", "braucht", "folgen", "lernen", "bestehen", "verstehen", "setzen",
   "bekommen", "beginnen", "erzählen", "versuchen", "schreiben", "laufen", "erklären",
   "entsprechen", "sitzen", "ziehen", "scheinen", "fallen", "gehören", "entstehen", "erhalten",
   "treffen", "suchen", "legen", "vorstellen", "handeln", "erreichen", "tragen", "schaffen",
   "lesen", "verlieren", "darstellen", "erkennen", "entwickeln", "reden", "aussehen",
   "erscheinen", "bilden", "anfangen", "erwarten", "lang", "lange", "langen", "kurz", "kurze",
   "kurzen", "hoch", "hohe", "hohen", "tief", "tiefe", "tiefen", "alt", "alte", "alten",
   "jung", "junge", "jungen", "schwer", "schwere", "schweren", "leicht", "leichte", "leichten",
   "stark", "starke", "starken", "schwach", "schwache", "schwachen", "richtige", "richtigen",
   "gleich", "gleichen", "gleiche", "wirklich", "endlich", "natürlich", "genau", "bereits",
   "frustrierend", "möglich", "wichtig", "nötig", "fertig", "jahr", "jahre", "jahren", "monat",
   "monate", "monaten", "woche", "wochen", "tag", "stunde", "stunden", "minute", "minuten",
   "anfang", "ende", "zeit", "zeiten", "start", "startet", "neujahr", "neujahrs", "vorsatz",
   "vorsätze", "weg", "teil", "seite", "art", "fall", "grund", "ziel", "sache", "stelle",
   "punkt", "bild", "wort", "hand", "mensch", "menschen", "leute", "frau", "frauen", "mann",
   "männer", "kind", "kinder", "welt", "land", "stadt", "haus", "problem", "probleme", "frage",
   "antwort", "lösung", "prozent", "nummer", "million", "milliarden"]

/-- The English stop-word set of the keyword generator. -/
def ENGLISH_STOP_WORDS : List String :=
  ["the", "a", "an", "is", "are", "was", "were", "be", "been", "being", "have", "has", "had",
   "do", "does", "did", "will", "would", "could", "should", "may", "might", "can", "shall",
   "must", "need", "and", "but", "or", "nor", "not", "so", "yet", "both", "either", "neither",
   "in", "on", "at", "to", "for", "of", "with", "by", "from", "as", "into", "through",
   "during", "before", "after", "above", "below", "between", "under", "i", "you", "he", "she",
   "it", "we", "they", "me", "him", "her", "us", "them", "my", "your", "his", "its", "our",
   "their", "this", "that", "these", "those", "what", "which", "who", "whom", "here", "there",
   "where", "when", "why", "how", "all", "each", "every", "no", "any", "some", "such", "than",
   "too", "very", "just", "only", "own", "same", "also", "other", "new", "now", "get", "got",
   "like", "know", "think", "want", "make", "take", "come", "look", "give", "find", "tell",
   "said", "says", "call", "keep", "help", "show", "turn", "move", "live", "feel", "seem",
   "left", "hand", "high", "last", "long", "much", "most", "many", "even", "back", "then",
   "them", "been", "next", "well", "still", "down", "over", "such", "only", "time", "year",
   "made", "work", "part", "real", "life", "love", "goes", "went", "seen", "came", "used",
   "going", "first", "world", "right", "place", "thing", "think", "never", "being", "always",
   "those", "after", "again", "about", "under", "while", "since", "found", "every", "still",
   "start", "point", "story", "eyes", "face", "head", "body", "skin", "hair", "hand", "hands",
   "feet", "lips", "neck", "back", "arms", "legs", "bone", "bones", "nail", "nails", "demi",
   "rhea", "kate", "emma", "anna", "lisa", "sara", "jane", "rose", "mary", "john", "mark",
   "paul", "mike", "alex", "jade", "lily", "ruby", "maya", "lena", "nina", "nora", "mila",
   "luna", "ella", "aria", "isla", "best", "better", "great", "good", "amazing", "awesome",
   "beautiful", "perfect", "wonderful", "incredible", "fantastic", "natural", "pure", "true",
   "real", "full", "open", "sure", "whole", "clear", "able", "free", "deep", "easy", "hard",
   "fast", "slow", "warm", "cold", "rich", "fresh", "clean", "safe", "dark", "fine", "soft",
   "wild", "rare", "calm", "way", "day", "man", "woman", "people", "child", "world", "water",
   "food", "home", "house", "money", "power", "level", "night", "light", "morning", "dream",
   "family", "heart", "mind", "friend", "health", "beauty", "nature", "magic", "secret",
   "gift", "game", "play", "book", "page", "story", "word", "name", "number", "group", "side",
   "room"]

/-- The generic ad-vocabulary set of the keyword generator. -/
def GENERIC_AD_WORDS : List String :=
  ["http", "https", "www", "com", ".de", "jetzt", "hier", "klicken", "angebot", "aktion",
   "rabatt", "prozent", "gratis", "kostenlos", "versandkostenfrei", "lieferung", "versand",
   "bestellen", "kaufen", "shoppen", "sichern", "entdecken", "erfahren", "verfügbar",
   "limitiert", "exklusiv", "premium", "original", "euro", "preis", "sparen", "günstiger",
   "reduziert", "sale", "code", "gutschein", "link", "bio", "profil", "seite", "website",
   "facebook", "instagram", "shop", "online", "bestell", "lieferbar", "erfahre", "mehr",
   "info", "information", "informationen", "deutschland", "österreich", "schweiz", "berlin",
   "münchen", "tage", "wochen", "monate", "jahre", "stunden", "minuten", "über", "unsere",
   "unser", "deine", "dein", "ihre", "sicher", "sichern", "sichere", "sicherer", "sicheres",
   "entdecke", "entdecken", "entdeckt", "erfahre", "erfahr", "glücklich", "glückliche",
   "glücklichen", "glücklicher", "kunden", "kunde", "kundin", "kundinnen", "ergebnis",
   "ergebnisse", "ergebnissen", "bewertung", "bewertungen", "rezension", "rezensionen",
   "qualität", "garantie", "zufrieden", "zufriedenheit", "wirkung", "wirkungen", "effekt",
   "effekte", "anwendung", "einnahme", "dosierung", "empfehlung", "alternative",
   "alternativen", "variante", "varianten", "hergestellt", "produziert", "entwickelt",
   "getestet", "verpackung", "lieferzeit", "bestellung", "paket", "vorteile", "vorteil",
   "nachteil", "nachteile", "dankbar", "begeistert", "überzeugt", "empfohlen", "bestätigt",
   "verifiziert", "zertifiziert", "deshalb", "deswegen", "darum", "daher", "trotzdem",
   "dennoch", "starten", "startet", "gestartet", "beginnt", "begonnen", "perfekt", "perfekte",
   "perfekten", "perfekter", "unterstützung", "unterstützen", "unterstützt", "genial",
   "geniale", "genialen", "fantastisch", "fantastische", "wissenschaftlich", "nachgewiesen",
   "belegt", "studien", "millionen", "tausende", "hunderte", "gescheitert", "geschafft",
   "erreicht", "gelöst", "verändert", "dafür", "dagegen", "davon", "daran", "darauf", "dabei",
   "oberste", "obersten", "oberster", "höchste", "höchsten", "priorität", "prioritäten",
   "hauptsache", "fokus", "neujahrs", "neujahrs-sale", "weihnachts", "oster", "sommer",
   "zufriedene", "begeisterte", "überzeugte", "zusammen", "gemeinsam", "komplett", "komplette",
   "kompletten", "täglich", "monatlich", "wöchentlich", "regelmäßig", "sogar", "bereits",
   "inzwischen", "mittlerweile", "endgültig", "verdient", "gesamte", "gesamten", "gesamter",
   "gesamtes", "vorrat", "vorräte", "geschenk", "geschenke", "neujahrs-geschenk",
   "neujahrs-sale", "neujahrs-aktion", "premium-produkte", "premium-qualität",
   "premium-produkt", "besondere", "besonderen", "besonderer", "besonderes", "unglaublich",
   "unglaubliche", "unglaublichen", "passiert", "aufgehört", "angefangen", "verändert",
   "tatsächlich", "eigentlich", "normalerweise", "grundsätzlich", "produkte", "produkt",
   "nahrungsergänzung", "nahrungsergänzungsmittel", "supplement", "supplements", "kapseln",
   "tabletten", "pulver", "zutat", "zutaten", "inhaltsstoffe", "inhaltsstoff", "spitzenpreis",
   "spitzenpreise", "spitzenpreisen", "endet", "enden", "endete", "beendet", "beenden",
   "wenigen", "weniger", "weniges", "wenigsten", "tagen", "tages", "starte", "startest",
   "starten", "gestartet", "nutze", "nutzen", "nutzt", "genutzt", "erlebe", "erleben",
   "erlebt", "erlebst", "lerne", "lernen", "lernt", "gelernt", "teste", "testen", "testet",
   "getestet", "spare", "sparst", "spart", "gespart", "warte", "warten", "wartet", "gewartet",
   "helfen", "hilft", "geholfen", "leiden", "leidet", "gelitten", "wirkt", "wirken", "gewirkt",
   "zeigen", "zeigt", "gezeigt", "bieten", "bietet", "geboten", "betroffen", "betroffene",
   "betroffenen", "betroffener", "überzeugen", "überzeugt", "überzeuge", "versprochen",
   "versprechen", "verspricht", "empfehlen", "empfiehlt", "empfohlen", "holen", "holst",
   "holt", "geholt", "garantiert", "geprüft", "bewährt", "beliebt", "bekannt", "revolutionär",
   "revolutionäre", "revolutionären", "einzigartig", "einzigartige", "einzigartigen",
   "natürliche", "natürlichen", "natürlicher", "natürliches", "wirkungsvolle",
   "wirkungsvoller", "wirkungsvoll", "positive", "positiven", "positiver", "positives",
   "negative", "negativen", "negativer", "negatives", "häufig", "häufige", "häufigen",
   "häufiger", "einfache", "einfachen", "einfacher", "einfaches", "schnelle", "schnellen",
   "schneller", "schnelles", "gesund", "gesunde", "gesunden", "gesunder", "gesundes",
   "gesundheit", "gesundheitlich", "gesundheitliche", "wohlbefinden", "wohlbefindens",
   "körper", "körpers", "wirklich", "wahre", "wahren", "wahrer", "wahres", "sofortige",
   "sofortigen", "sofortiger", "höchste", "höchster", "höchstes", "verändern", "veränderung",
   "veränderungen", "verbessern", "verbessert", "verbesserung", "verbesserungen", "erfahrung",
   "erfahrungen", "erfahrene", "erfahrener", "lösung", "lösungen", "bestellen", "bestellbar",
   "bestellungen", "sichern", "gesichert", "begrenzt", "begrenzte", "begrenzten", "begrenzter",
   "vertrauen", "vertraut", "vertraue", "empfinden", "empfindet", "empfunden", "zurück",
   "zurückgeben", "rückgabe", "risiko", "risikofrei", "zufrieden", "unzufrieden", "wunder",
   "wunderbar", "wunderbare", "wunderbaren", "lager", "lagerbestand", "vorrätig",
   "ausverkauft", "nachfrage", "bedarf", "endlich", "endliche", "sofort", "sofortig",
   "sonderangebot", "sonderaktion", "sonderpreis", "neuheit", "neuheiten", "neuartig",
   "neuartige", "beweis", "beweise", "bewiesen", "geheim", "geheimnis", "geheimnisse", "trick",
   "tricks", "tipps", "gefühl", "gefühle", "gefühlen", "gefühls", "innen", "innere", "inneren",
   "innerer", "inneres", "wieder", "wiederum", "plus", "minus", "balance", "imbalance",
   "routine", "routinen", "gleichgewicht", "wirksamkeit", "wirkungsweise", "vitamin",
   "vitamine", "vitaminen", "zustand", "zustände", "zuständen", "kraft", "kräfte", "kräften",
   "energie", "energien", "schönheit", "pflege", "pflegen", "gepflegt", "haut", "haare",
   "nägel", "haar", "anti-aging", "anti", "aging", "strahlend", "strahlende", "strahlenden",
   "jugendlich", "jugendliche", "jugendlichen", "fühlen", "fühlt", "fühlst", "gefühlt",
   "aussehen", "aussieht", "wohlfühlen", "wohlbefinden", "collections", "collection", "trotz",
   "trotzdem", "eingenommene", "eingenommen", "eingenommenen", "aktive", "aktiven", "aktiver",
   "aktives", "aktivem", "allein", "alleine", "einzeln", "solo", "bundles", "bundle",
   "kombination", "kombinationen", "calcium", "magnesium", "zink", "eisen", "jod", "selen",
   "darm", "darmflora", "verdauung", "müde", "müdigkeit", "erschöpft", "erschöpfung", "schlaf",
   "schlafen", "schlafqualität", "stress", "stressig", "entspannung", "entspannt",
   "immunsystem", "abwehrkräfte", "immunabwehr", "stoffwechsel", "metabolismus", "abnehmen",
   "gewicht", "diät", "figur", "muskel", "muskeln", "muskelaufbau", "gelenke", "gelenk",
   "gelenkschmerzen", "entzündung", "entzündungen", "entzündlich", "symptome", "symptom",
   "beschwerden", "beschwerde", "diagnose", "therapie", "behandlung", "behandlungen", "arzt",
   "ärzte", "ärztin", "ärztlich", "ärztliche", "studie", "studien", "forschung",
   "wissenschaft", "wirkstoff", "wirkstoffe", "wirkstoffkomplex", "etwas", "kannst", "könnte",
   "könnten", "sollte", "sollten", "trotz", "trotzdem", "obwohl", "dennoch", "davon", "dafür",
   "daran", "darauf", "dabei", "damit", "vorverkauf", "mengenrabatt", "rabattcode",
   "gutscheincode", "angebote", "angeboten", "aktion", "aktionen", "click", "buy", "order",
   "shop", "now", "today", "free", "shipping", "discount", "sale", "offer", "deal", "save",
   "price", "limited", "exclusive", "premium", "original", "authentic", "learn", "more",
   "discover", "explore", "check", "out", "available", "delivery", "fast", "easy", "simple",
   "best", "better", "great", "good", "amazing", "awesome", "customers", "customer", "review",
   "reviews", "rated"]
/-- `isStopWord`. -/
def isStopWord (w : String) : Bool := w ∈ GERMAN_STOP_WORDS || w ∈ ENGLISH_STOP_WORDS

/-- `isGenericAdWord`. -/
def isGenericAdWord (w : String) : Bool := w ∈ GENERIC_AD_WORDS

/-- `isBrandWord`: the word equals the lower-cased brand name, its
separator-stripped form equals the brand's, or either contains the
other. -/
def isBrandWord (w brandLower brandNormalized : String) : Bool :=
  let wordNormalized := stripSeparators w
  w = brandLower || wordNormalized = brandNormalized ||
  strContains brandLower w || strContains w brandLower

/-- The characters the tokenizer keeps
(`text.replace(/[^\wäöüßÄÖÜ\s-]/g, ' ')`). -/
def allowedTokenChar (c : Char) : Bool :=
  ('a' ≤ c && c ≤ 'z') || ('A' ≤ c && c ≤ 'Z') || ('0' ≤ c && c ≤ '9') || c = '_' ||
  c = 'ä' || c = 'ö' || c = 'ü' || c = 'ß' || c = 'Ä' || c = 'Ö' || c = 'Ü' ||
  jsIsSpace c || c = '-'

/-- Replace every disallowed character with a space. -/
def sanitizeText (s : String) : String :=
  ⟨s.data.map (fun c => if allowedTokenChar c then c else ' ')⟩

/-- JS `/^\d+$/.test(w)`. -/
def isPureNumeric (w : String) : Bool := w ≠ "" && w.data.all (fun c => '0' ≤ c && c ≤ '9')

/-- JS `/^\d/.test(w)`. -/
def startsWithDigit (w : String) : Bool :=
  match w.data with
  | c :: _ => '0' ≤ c && c ≤ '9'
  | [] => false

/-- The tokenizer pipeline of `extractAndScoreWords` up to and including
the lower-casing: sanitize, split on whitespace, keep tokens of length
≥ 4, lower-case and trim. -/
def rawTokens (text : String) : List String :=
  ((splitDrop jsIsSpace (sanitizeText text)).filter (fun w => 4 ≤ w.data.length)).map
    (fun w => jsTrim (jsToLower w))

/-- The word-level filters of `extractAndScoreWords` after
lower-casing. -/
def keywordTokenOk (brandLower brandNormalized : String) (w : String) : Bool :=
  !isPureNumeric w && !startsWithDigit w && !isStopWord w && !isGenericAdWord w &&
  !isBrandWord w brandLower brandNormalized

/-- The surviving tokens of one text. -/
def extractWords (brandLower brandNormalized : String) (text : String) : List String :=
  (rawTokens text).filter (keywordTokenOk brandLower brandNormalized)

/-- One entry of the score map. -/
structure WordScore where
  frequency : ℕ
  sources : List String
deriving Repr, DecidableEq

/-- One token's update of the score map (the body of the
`extractAndScoreWords` loop). -/
def scoreStep (source : String) (m : List (String × WordScore)) (w : String) :
    List (String × WordScore) :=
  match alGet m w with
  | some s => alSet m w ⟨s.frequency + 1, setAdd s.sources source⟩
  | none => alSet m w ⟨1, [source]⟩

/-- `extractAndScoreWords`: feed one text's surviving tokens into the
score map. -/
def extractAndScoreWords (brandLower brandNormalized : String)
    (scores : List (String × WordScore)) (text : String) (source : String) :
    List (String × WordScore) :=
  (extractWords brandLower brandNormalized text).foldl (scoreStep source) scores

/-- One ad's contribution to the score map (bodies, then titles, then
descriptions). -/
def scoreAd (brandLower brandNormalized : String) (m : List (String × WordScore))
    (ad : MetaAd) : List (String × WordScore) :=
  let m1 :=
    match ad.ad_creative_bodies with
    | some bs => bs.foldl (fun m' b => extractAndScoreWords brandLower brandNormalized m' b "body") m
    | none => m
  let m2 :=
    match ad.ad_creative_link_titles with
    | some ts => ts.foldl (fun m' t => extractAndScoreWords brandLower brandNormalized m' t "title") m1
    | none => m1
  match ad.ad_creative_link_descriptions with
  | some ds => ds.foldl (fun m' d => extractAndScoreWords brandLower brandNormalized m' d "description") m2
  | none => m2

/-- The full score map over all ads (bodies, then titles, then
descriptions, per ad). -/
def buildWordScores (ads : List MetaAd) (brandLower brandNormalized : String) :
    List (String × WordScore) :=
  ads.foldl (scoreAd brandLower brandNormalized) []

/-- `Math.max(3, Math.ceil(ads.length * 0.005))` (exact for every
realistic ad count: `⌈n·0.005⌉ = ⌈n/200⌉`). -/
def minFrequency (adCount : ℕ) : ℕ := max 3 ((adCount + 199) / 200)

structure KeywordScoreEntry where
  keyword : String
  frequency : ℕ
  source : String
deriving Repr, DecidableEq

structure KeywordGeneratorResult where
  keywords : List String
  keyword_scores : List KeywordScoreEntry
  total_ads_analyzed : ℕ
deriving Repr, DecidableEq

/-- `word.charAt(0).toUpperCase() + word.slice(1)`. -/
def capitalize (w : String) : String :=
  match w.data with
  | [] => ""
  | c :: rest => ⟨jsToUpperChar c :: rest⟩

/-- The token pipeline of `generateCompoundKeywords` (no generic-word
filter at token level). -/
def compoundTokens (brandLower brandNormalized : String) (text : String) : List String :=
  (rawTokens text).filter (fun w =>
    !isPureNumeric w && !startsWithDigit w && !isStopWord w &&
    !isBrandWord w brandLower brandNormalized)

/-- The bigram loop body over one token list. -/
def addBigrams (counts : List (String × ℕ)) (words : List String) : List (String × ℕ) :=
  (words.zip words.tail).foldl
    (fun acc (w1, w2) =>
      if isGenericAdWord w1 || isGenericAdWord w2 then acc
      else if w1 = w2 then acc
      else
        let bigram := capitalize w1 ++ " " ++ capitalize w2
        alSet acc bigram ((alGet acc bigram).getD 0 + 1))
    counts

/-- `generateCompoundKeywords`: 2-word compounds from bodies and titles,
kept at ≥ 3 occurrences, sorted by count, top 10. -/
def generateCompoundKeywords (ads : List MetaAd) (brandLower brandNormalized : String) :
    List KeywordScoreEntry :=
  let bigramCounts :=
    ads.foldl
      (fun counts ad =>
        let texts := (ad.ad_creative_bodies.getD []) ++ (ad.ad_creative_link_titles.getD [])
        texts.foldl
          (fun c text => addBigrams c (compoundTokens brandLower brandNormalized text))
          counts)
      []
  ((jsSortBy (fun a b => b.2 ≤ a.2) (bigramCounts.filter (fun e => 3 ≤ e.2))).take 10).map
    (fun e => ⟨e.1, e.2, "body"⟩)

/-- One step of the single-keyword merge loop (dedup up to
`maxKeywords`). -/
def mergeSingleStep (maxKeywords : ℕ) (acc : List String × List KeywordScoreEntry)
    (pr : String × KeywordScoreEntry) : List String × List KeywordScoreEntry :=
  if acc.1.length < maxKeywords ∧ pr.1 ∉ acc.1 then (acc.1 ++ [pr.1], acc.2 ++ [pr.2])
  else acc

/-- One step of the compound-keyword merge loop (skip compounds both of
whose parts are already covered by single keywords). -/
def mergeCompoundStep (maxKeywords : ℕ) (acc : List String × List KeywordScoreEntry)
    (ck : KeywordScoreEntry) : List String × List KeywordScoreEntry :=
  if maxKeywords ≤ acc.1.length then acc
  else
    let parts := splitDrop (· = ' ') (jsToLower ck.keyword)
    let bothPartsInSingles := parts.all (fun p => acc.1.any (fun fk => jsToLower fk = p))
    if ¬ bothPartsInSingles ∧ ck.keyword ∉ acc.1 then (acc.1 ++ [ck.keyword], acc.2 ++ [ck])
    else acc

/-- `generateKeywords` (keyword-generator.ts, lines 617–699): frequency-
ranked single-token keywords above the adaptive threshold, padded with
compound keywords. -/
def generateKeywords (ads : List MetaAd) (brandName : String) (maxKeywords : ℕ) :
    KeywordGeneratorResult :=
  let brandLower := jsToLower brandName
  let brandNormalized := stripSeparators brandLower
  let wordScores := buildWordScores ads brandLower brandNormalized
  let minFreq := minFrequency ads.length
  let sorted :=
    (jsSortBy (fun a b => b.2.frequency ≤ a.2.frequency)
      (wordScores.filter (fun e => minFreq ≤ e.2.frequency))).take maxKeywords
  let keywords := sorted.map (·.1)
  let keyword_scores : List KeywordScoreEntry :=
    sorted.map (fun e => ⟨e.1, e.2.frequency, e.2.sources.headD "body"⟩)
  let compoundKeywords := generateCompoundKeywords ads brandLower brandNormalized
  let merged1 := (keywords.zip keyword_scores).foldl (mergeSingleStep maxKeywords) ([], [])
  let merged2 := compoundKeywords.foldl (mergeCompoundStep maxKeywords) merged1
  ⟨merged2.1, merged2.2, ads.length⟩

/-- The frequency-sorted, threshold-filtered, truncated single-keyword
score list of `generateKeywords` (its `sorted` local). -/
def singlesSorted (ads : List MetaAd) (brandName : String) (maxKeywords : ℕ) :
    List (String × WordScore) :=
  (jsSortBy (fun a b => b.2.frequency ≤ a.2.frequency)
    ((buildWordScores ads (jsToLower brandName)
        (stripSeparators (jsToLower brandName))).filter
      (fun e => minFrequency ads.length ≤ e.2.frequency))).take maxKeywords

/-- The token stream a list of ads feeds into the tokenizer: for each
ad its bodies, titles and descriptions, each tokenized by `rawTokens`
(before the word-level filters). -/
def adRawTokens (ad : MetaAd) : List String :=
  ((ad.ad_creative_bodies.getD []).flatMap rawTokens)
    ++ ((ad.ad_creative_link_titles.getD []).flatMap rawTokens)
    ++ ((ad.ad_creative_link_descriptions.getD []).flatMap rawTokens)

/-- The same stream after the word-level filters — the tokens the score
map actually consumes. -/
def adFilteredTokens (brandLower brandNormalized : String) (ad : MetaAd) : List String :=
  ((ad.ad_creative_bodies.getD []).flatMap (extractWords brandLower brandNormalized))
    ++ ((ad.ad_creative_link_titles.getD []).flatMap (extractWords brandLower brandNormalized))
    ++ ((ad.ad_creative_link_descriptions.getD []).flatMap (extractWords brandLower brandNormalized))

/-- The invariant of the score-map fold: keys are unique, every entry's
frequency is the number of occurrences of its key in the tokens
processed so far, and every processed token has an entry. -/
def swInv (toks : List String) (m : List (String × WordScore)) : Prop :=
  (m.map (·.1)).Nodup ∧
  (∀ w s, alGet m w = some s → s.frequency = toks.count w ∧ 0 < toks.count w) ∧
  (∀ w, 0 < toks.count w → (alGet m w).isSome = true)

/-! ### Concrete fixtures for scenario runs -/

/-- The "Glow25" brand profile used by the scenario runs: resolved
domain `glow25.de`, alias `glow25`, Shopify vendor `Glow25`. -/
def glowBrand : BrandInfo :=
  ⟨"Glow25", some "glow25.de", ["glow25"], none, some "Glow25", some "shopify", ["111"], []⟩

/-- An environment where the candidate `supps-store.example` serves a
Shopify storefront whose products.json lists vendor "Glow25 GmbH". -/
def vendorEnv : CheckEnv :=
  { fetchWithRedirects := fun u =>
      if u = "supps-store.example" then
        some ⟨"https://supps-store.example/", ["https://supps-store.example"],
              "<html><script src=https://cdn.shopify.com/s/x.js></script></html>"⟩
      else none
    products := fun d => if d = "supps-store.example" then some ["Glow25 GmbH"] else none
    trackPresell := fun _ => ⟨none, none, []⟩
    fetchHtml := fun _ => none
    scrapingbee := fun _ => none }

/-- An environment in which every outbound call fails. -/
def noNetEnv : CheckEnv :=
  { fetchWithRedirects := fun _ => none
    products := fun _ => none
    trackPresell := fun _ => ⟨none, none, []⟩
    fetchHtml := fun _ => none
    scrapingbee := fun _ => none }

/-- Options with no harvested URLs, ads, or ScrapingBee key. -/
def emptyOpts : DomainCheckOptions := ⟨none, none, none⟩

/-- A two-URL redirect cycle: `https://a.example → https://b.example →
https://a.example → ...`. -/
def cycleRedirectEnv : RedirectEnv := fun u =>
  if u = "https://a.example" then some "https://b.example"
  else if u = "https://b.example" then some "https://a.example"
  else none

/-- Ads for the keyword-generator scenario: "kollagen" appears three
times in one body text of the Glow25 brand ads. -/
def kwAd1 : MetaAd := { emptyAd "1" with
  page_id := some "p1"
  page_name := some "Glow25"
  ad_creative_bodies := some ["Kollagen hilft! Kollagen für dich und Kollagen morgen 2024"]
  ad_creative_link_captions := some ["GLOW25.DE"] }

/-- A third-party ad whose caption carries a foreign domain. -/
def kwAd2 : MetaAd := { emptyAd "2" with
  page_id := some "p2"
  page_name := some "Health Blog"
  ad_creative_link_captions := some ["healthblog.example/reviews/x", "glow25.de"] }

def kwAds : List MetaAd := [kwAd1, kwAd2]

/-- Six candidate domains with one page and one ad each, for the
deadline-degrade run. -/
def sixDomainState : ExtractState :=
  { domainPageMap :=
      [("d1.example", ["p1"]), ("d2.example", ["p1"]), ("d3.example", ["p1"]),
       ("d4.example", ["p1"]), ("d5.example", ["p1"]), ("d6.example", ["p1"])]
    domainAdCount :=
      [("d1.example", 1), ("d2.example", 1), ("d3.example", 1),
       ("d4.example", 1), ("d5.example", 1), ("d6.example", 1)]
    allPages := [("p1", ⟨"Health Blog", 6, []⟩)]
    domainFullUrls := []
    brandDomains := ["glow25.de"] }

/-- A deadline oracle that lets batch 0 run and fires from batch 1 on —
a run whose time budget is exhausted mid-way through step 6. -/
def midRunOracle : DeadlineOracle := ⟨false, fun i => 1 ≤ i⟩

/-- A deadline oracle that has already fired before step 6 begins: no
domain is ever verified. -/
def preStep6Oracle : DeadlineOracle := ⟨true, fun _ => true⟩

/-- Two verified matches sharing the page `pX`, at different confidence
levels, for the merge scenario. -/
def mergeMatchA : DomainBrandCheck :=
  ⟨"a.example", true, "redirect", 90, none, [], some "glow25.de", none, ["pX", "pY"], 4⟩

def mergeMatchB : DomainBrandCheck :=
  ⟨"b.example", true, "content_link", 75, none, [], some "glow25.de", none, ["pX"], 2⟩

def mergeMatches : List DomainBrandCheck := [mergeMatchA, mergeMatchB]


/-- The `(match, pageId)` pairs the third-party merge loop actually
processes, in processing order (official page ids skipped). -/
def tpPairs (officialIds : List String) (matched : List DomainBrandCheck) :
    List (DomainBrandCheck × String) :=
  matched.flatMap (fun m =>
    (m.page_ids.filter (fun pid => pid ∉ officialIds)).map (fun pid => (m, pid)))

/-- The invariant of the third-party merge fold: entries are keyed by
their page id, keys are unique and correspond exactly to the processed
pairs, and each entry carries a maximal-confidence match's type and
confidence together with the accumulated ad count. -/
def tpInv (processed : List (DomainBrandCheck × String))
    (acc : List (String × ThirdPartyPageInfo)) : Prop :=
  (∀ p ∈ acc, p.2.page_id = p.1) ∧
  (acc.map (·.1)).Nodup ∧
  (∀ k, k ∈ acc.map (·.1) ↔ ∃ pr ∈ processed, pr.2 = k) ∧
  (∀ k e, alGet acc k = some e →
    (∃ pr ∈ processed, pr.2 = k ∧ pr.1.match_type = e.connection_type ∧
        pr.1.confidence = e.confidence) ∧
    (∀ pr ∈ processed, pr.2 = k → pr.1.confidence ≤ e.confidence) ∧
    e.ad_count = ((processed.filter (fun pr => pr.2 = k)).map (fun pr => pr.1.ad_count)).sum)

/-- The property every key of the candidate-domain map satisfies: not in
the initial brand-domain exclusion set, containing no
(whitespace-stripped) brand alias, and already lower-case. -/
def candidateKeyOk (brandInfo : BrandInfo) (k : String) : Prop :=
  k ∉ initialBrandDomains brandInfo ∧
  brandInfo.brand_aliases.any (fun ali => strContains k (stripSpaces ali)) = false ∧
  jsToLower k = k

/-- The invariant of `extractUniqueDomains`'s fold: every accumulated
key is a proper candidate, and the growing `brandDomains` set keeps
containing its initial elements. -/
def extractInv (brandInfo : BrandInfo) (st : ExtractState) : Prop :=
  (∀ k ∈ st.domainPageMap.map (·.1), candidateKeyOk brandInfo k) ∧
  (∀ d ∈ initialBrandDomains brandInfo, d ∈ st.brandDomains)

/-! ## Theorems -/

/-! ### Generic lemmas about the association-list and sorting helpers -/

theorem alGet_alSet_self {β : Type} (m : List (String × β)) (k : String) (v : β) :
    alGet (alSet m k v) k = some v := by
  induction m with
  | nil => simp [alSet, alGet]
  | cons p rest ih =>
    by_cases h : p.1 = k
    · simp [alSet, alGet, h]
    · simp [alSet, alGet, h, ih]

theorem alGet_alSet_ne {β : Type} (m : List (String × β)) (k j : String) (v : β)
    (h : j ≠ k) : alGet (alSet m k v) j = alGet m j := by
  have hk : k ≠ j := Ne.symm h
  induction m with
  | nil => simp [alSet, alGet, hk]
  | cons p rest ih =>
    by_cases hp : p.1 = k
    · rw [show alSet (p :: rest) k v = (k, v) :: rest by simp [alSet, hp]]
      rw [show alGet ((k, v) :: rest) j = alGet rest j by simp [alGet, hk]]
      rw [show alGet (p :: rest) j = alGet rest j by simp [alGet, hp ▸ hk]]
    · rw [show alSet (p :: rest) k v = p :: alSet rest k v by simp [alSet, hp]]
      by_cases hj : p.1 = j
      · rw [show alGet (p :: alSet rest k v) j = some p.2 by simp [alGet, hj]]
        rw [show alGet (p :: rest) j = some p.2 by simp [alGet, hj]]
      · rw [show alGet (p :: alSet rest k v) j = alGet (alSet rest k v) j by simp [alGet, hj]]
        rw [show alGet (p :: rest) j = alGet rest j by simp [alGet, hj]]
        exact ih

theorem alGet_none_iff_not_key {β : Type} (m : List (String × β)) (k : String) :
    alGet m k = none ↔ k ∉ m.map (·.1) := by
  induction m with
  | nil => simp [alGet]
  | cons p rest ih =>
    by_cases h : p.1 = k
    · simp [alGet, h]
    · simp only [alGet, if_neg h, List.map_cons, List.mem_cons, ih]
      constructor
      · intro hn hcase
        rcases hcase with hc | hc
        · exact h hc.symm
        · exact hn hc
      · intro hn
        exact fun hc => hn (Or.inr hc)

theorem alGet_isSome_iff_key {β : Type} (m : List (String × β)) (k : String) :
    (alGet m k).isSome = true ↔ k ∈ m.map (·.1) := by
  rcases hh : alGet m k with _ | v
  · simpa using (alGet_none_iff_not_key m k).mp hh
  · simp only [Option.isSome_some, true_iff]
    by_contra hmem
    rw [(alGet_none_iff_not_key m k).mpr hmem] at hh
    exact Option.noConfusion hh

theorem alSet_keys_of_key {β : Type} (m : List (String × β)) (k : String) (v : β)
    (h : k ∈ m.map (·.1)) : (alSet m k v).map (·.1) = m.map (·.1) := by
  induction m with
  | nil => simp at h
  | cons p rest ih =>
    by_cases hp : p.1 = k
    · simp [alSet, hp]
    · simp only [List.map_cons, List.mem_cons] at h
      rcases h with h | h
      · exact absurd h.symm hp
      · simp [alSet, hp, ih h]

theorem alSet_keys_of_not_key {β : Type} (m : List (String × β)) (k : String) (v : β)
    (h : k ∉ m.map (·.1)) : (alSet m k v).map (·.1) = m.map (·.1) ++ [k] := by
  induction m with
  | nil => simp [alSet]
  | cons p rest ih =>
    simp only [List.map_cons, List.mem_cons] at h
    push_neg at h
    simp [alSet, Ne.symm h.1, ih h.2]

theorem alGet_of_mem_nodup {β : Type} (m : List (String × β)) (k : String) (v : β)
    (hmem : (k, v) ∈ m) (hnd : (m.map (·.1)).Nodup) : alGet m k = some v := by
  induction m with
  | nil => simp at hmem
  | cons p rest ih =>
    simp only [List.map_cons, List.nodup_cons] at hnd
    rcases List.mem_cons.mp hmem with h | h
    · subst h; simp [alGet]
    · have hk : p.1 ≠ k := by
        intro hh
        exact hnd.1 (hh ▸ (List.mem_map.mpr ⟨(k, v), h, rfl⟩))
      simp [alGet, hk, ih h hnd.2]

theorem mem_of_alGet_eq_some {β : Type} (m : List (String × β)) (k : String) (v : β)
    (h : alGet m k = some v) : (k, v) ∈ m := by
  induction m with
  | nil => simp [alGet] at h
  | cons p rest ih =>
    by_cases hp : p.1 = k
    · simp only [alGet, if_pos hp] at h
      obtain ⟨p1, p2⟩ := p
      simp only at hp
      injection h with h2
      subst hp
      subst h2
      exact List.mem_cons_self _ _
    · simp only [alGet, if_neg hp] at h
      exact List.mem_cons_of_mem _ (ih h)

theorem insertLe_perm {α : Type} (le : α → α → Bool) (x : α) (l : List α) :
    (insertLe le x l).Perm (x :: l) := by
  induction l with
  | nil => simp [insertLe]
  | cons y ys ih =>
    by_cases h : le y x
    · simpa [insertLe, h] using (ih.cons y).trans (List.Perm.swap x y ys)
    · simp [insertLe, h]

theorem foldl_insertLe_perm {α : Type} (le : α → α → Bool) (l : List α) :
    ∀ acc, (l.foldl (fun acc x => insertLe le x acc) acc).Perm (acc ++ l) := by
  induction l with
  | nil => intro acc; simp
  | cons x xs ih =>
    intro acc
    refine (ih (insertLe le x acc)).trans ?_
    have h1 : (insertLe le x acc ++ xs).Perm ((x :: acc) ++ xs) :=
      (insertLe_perm le x acc).append_right xs
    refine h1.trans ?_
    simpa using (@List.perm_middle _ x acc xs).symm

theorem jsSortBy_perm {α : Type} (le : α → α → Bool) (l : List α) :
    (jsSortBy le l).Perm l := by
  simpa [jsSortBy] using foldl_insertLe_perm le l []

theorem mem_jsSortBy {α : Type} (le : α → α → Bool) (l : List α) (x : α) :
    x ∈ jsSortBy le l ↔ x ∈ l := (jsSortBy_perm le l).mem_iff

/-! ### C3 — the Redirect Resolver on a two-URL cycle -/

/-- C3 (counterexample): on the cycle `https://a.example ↔
https://b.example`, `trackRedirectChain` does **not** stop when a URL
repeats and does not return the chain `[A, B]`: it runs all
`MAX_REDIRECTS = 10` hops and returns the 11-entry alternating chain. -/
theorem C3_redirect_cycle_counterexample :
    (trackRedirectChain cycleRedirectEnv "https://a.example").chain ≠
      ["https://a.example", "https://b.example"] ∧
    (trackRedirectChain cycleRedirectEnv "https://a.example").chain.length = 11 := by
  constructor
  · decide
  · decide

/-- C3 (amended): for every environment whose responses form the
redirect cycle `A → B → A`, the Resolver terminates, but only after
exhausting all `MAX_REDIRECTS = 10` hops, returning the alternating
11-entry chain `[A, B, A, ..., A]` with `final_url = A`; it has no
repeated-URL cycle guard. -/
theorem C3_redirect_cycle_amended (env : RedirectEnv) (A B : String) (_hAB : A ≠ B)
    (hA : env A = some B) (hB : env B = some A) :
    trackRedirectChain env A =
      ⟨A, A, [A, B, A, B, A, B, A, B, A, B, A]⟩ := by
  simp [trackRedirectChain, MAX_REDIRECTS, trackLoop, hA, hB]

/-- Witness for `C3_redirect_cycle_amended` at the concrete cycle. -/
theorem C3_redirect_cycle_amended_witness :
    trackRedirectChain cycleRedirectEnv "https://a.example" =
      ⟨"https://a.example", "https://a.example",
       ["https://a.example", "https://b.example", "https://a.example", "https://b.example",
        "https://a.example", "https://b.example", "https://a.example", "https://b.example",
        "https://a.example", "https://b.example", "https://a.example"]⟩ :=
  C3_redirect_cycle_amended cycleRedirectEnv "https://a.example" "https://b.example"
    (by decide) (by decide) (by decide)

/-! ### C2 — the vendor check on vendor "Glow25 GmbH", brand "Glow25" -/

/-- C2 (counterexample): for vendor list `["Glow25 GmbH"]` and brand
name "Glow25", the substring-containment tier fires first, so the
vendor check returns confidence 0.80, not the claimed 0.85. -/
theorem C2_vendor_tier_counterexample :
    (shopifyStoreHasVendor (some ["Glow25 GmbH"]) "Glow25").confidence = 80 ∧
    (shopifyStoreHasVendor (some ["Glow25 GmbH"]) "Glow25").found = true ∧
    (shopifyStoreHasVendor (some ["Glow25 GmbH"]) "Glow25").matched_vendor = some "Glow25 GmbH" ∧
    (80 : ℕ) ≠ 85 := by
  refine ⟨by decide, by decide, by decide, by decide⟩

/-- C2 (amended): a candidate domain whose products-JSON vendor list
contains "Glow25 GmbH" for brand vendor name "Glow25" is verified as
kind `shopify_vendor` at confidence 0.80 — the substring-containment
tier, which precedes the separator-normalized-equality tier (0.85) in
the cascade, and the normalized forms are not equal anyway. -/
theorem C2_vendor_tier_amended :
    (checkDomainForBrand vendorEnv "supps-store.example" glowBrand emptyOpts).match_type =
      "shopify_vendor" ∧
    (checkDomainForBrand vendorEnv "supps-store.example" glowBrand emptyOpts).confidence = 80 ∧
    (checkDomainForBrand vendorEnv "supps-store.example" glowBrand emptyOpts).is_match = true ∧
    (checkDomainForBrand vendorEnv "supps-store.example" glowBrand emptyOpts).vendor_name =
      some "Glow25 GmbH" := by
  refine ⟨by decide, by decide, by decide, by decide⟩

/-! ### C4 — the Direct step dominates and short-circuits -/

/-- C4: a candidate domain equal (case-insensitively) to the brand's
resolved domain is verified as `direct` with confidence 1.0, and the
result is independent of the network environment and the options — no
later cascade step can influence it, even one that would also match. -/
theorem C4_direct_short_circuit (env env' : CheckEnv) (domain : String)
    (brandInfo : BrandInfo) (options options' : DomainCheckOptions) (bd : String)
    (h1 : brandInfo.brand_domain = some bd) (h2 : bd ≠ "")
    (h3 : jsToLower domain = jsToLower bd) :
    checkDomainForBrand env domain brandInfo options =
      { noMatchCheck domain with is_match := true, match_type := "direct", confidence := 100,
                                 shop_domain := some domain } ∧
    checkDomainForBrand env domain brandInfo options =
      checkDomainForBrand env' domain brandInfo options' := by
  have hmain : ∀ (e : CheckEnv) (o : DomainCheckOptions),
      checkDomainForBrand e domain brandInfo o =
        { noMatchCheck domain with is_match := true, match_type := "direct", confidence := 100,
                                   shop_domain := some domain } := by
    intro e o
    unfold checkDomainForBrand
    simp [h1, optTruthy, h2, h3]
  exact ⟨hmain env options, (hmain env options).trans (hmain env' options').symm⟩

/-- Witness for `C4_direct_short_circuit`: `GLOW25.DE` against the
Glow25 profile, under two different environments. -/
theorem C4_direct_short_circuit_witness :
    checkDomainForBrand vendorEnv "GLOW25.DE" glowBrand emptyOpts =
      { noMatchCheck "GLOW25.DE" with is_match := true, match_type := "direct",
                                      confidence := 100, shop_domain := some "GLOW25.DE" } ∧
    checkDomainForBrand vendorEnv "GLOW25.DE" glowBrand emptyOpts =
      checkDomainForBrand noNetEnv "GLOW25.DE" glowBrand emptyOpts :=
  C4_direct_short_circuit vendorEnv noNetEnv "GLOW25.DE" glowBrand emptyOpts emptyOpts
    "glow25.de" rfl (by decide) (by decide)

/-! ### C5 — zero ads for the brand name -/

/-- C5: with zero brand ads no domain can be resolved, so the pipeline
terminates with `success = false`, an error string beginning "Could not
find brand domain", and empty page / domain lists. -/
theorem C5_zero_ads_error (detectShopify : String → Option ShopifyDetection)
    (brandName : String) :
    ∃ r, discoverResolveBrand detectShopify brandName [] = .error r ∧
      r.success = false ∧
      r.error = some "Could not find brand domain from Meta ads" ∧
      strStarts "Could not find brand domain from Meta ads" "Could not find brand domain" = true ∧
      r.pages.official = [] ∧ r.pages.third_party = [] ∧
      r.domains.presell = [] ∧ r.domains.redirect = [] ∧
      r.domains.final_shop = [] ∧ r.domains.all = [] ∧
      r.top_landing_pages = [] := by
  refine ⟨makeErrorResponse brandName "Could not find brand domain from Meta ads", ?_, ?_⟩
  · simp [discoverResolveBrand, findBrandDomain, optTruthy]
  · refine ⟨rfl, rfl, by decide, rfl, rfl, rfl, rfl, rfl, rfl, rfl⟩

/-! ### C7 — missing or empty brand name rejected before any network
activity -/

/-- C7: a missing or empty brand name makes the `/api/discover` handler
answer 400 "brand is required" with an empty outbound-effect trace — no
cache read, no discovery start, no ad-source call happens before the
input-error response. -/
theorem C7_empty_brand_rejected (brand : Option String) (metaTokenConfigured : Bool)
    (supabaseConfigured forceRefresh : Bool) (cacheHit activeJobForBrand : Option String)
    (h : brand = none ∨ brand = some "") :
    handleDiscoverPost brand metaTokenConfigured supabaseConfigured forceRefresh cacheHit
      activeJobForBrand = ([], ⟨400, "brand is required"⟩) := by
  rcases h with h | h <;> subst h <;> simp [handleDiscoverPost, optTruthy]

/-- Witness for `C7_empty_brand_rejected` at the empty brand name. -/
theorem C7_empty_brand_rejected_witness :
    handleDiscoverPost (some "") true true false none none =
      ([], ⟨400, "brand is required"⟩) :=
  C7_empty_brand_rejected (some "") true true false none none (Or.inr rfl)

/-! ### C10 — the candidate-domain map excludes the brand's domains -/

theorem jsToLowerChar_idem (c : Char) : jsToLowerChar (jsToLowerChar c) = jsToLowerChar c := by
  have key : ∀ pr ∈ lowerPairs, ∀ q ∈ lowerPairs, (q.1 = pr.2) = False := by decide
  unfold jsToLowerChar
  cases h : lowerPairs.find? (fun p => p.1 = c) with
  | none => simp [h]
  | some pr =>
    have hmem : pr ∈ lowerPairs := List.mem_of_find?_eq_some h
    have hnone : lowerPairs.find? (fun p => p.1 = pr.2) = none := by
      rw [List.find?_eq_none]
      intro q hq
      simp [key pr hmem q hq]
    simp [h, hnone]

theorem jsToLower_idem (s : String) : jsToLower (jsToLower s) = jsToLower s := by
  have hfun : jsToLowerChar ∘ jsToLowerChar = jsToLowerChar := funext jsToLowerChar_idem
  unfold jsToLower
  simp only [List.map_map, hfun]

theorem mem_setAdd_self (s : List String) (x : String) : x ∈ setAdd s x := by
  by_cases h : x ∈ s <;> simp [setAdd, h]

theorem mem_setAdd_of_mem (s : List String) (x y : String) (h : y ∈ s) : y ∈ setAdd s x := by
  by_cases hx : x ∈ s <;> simp [setAdd, hx, h]

theorem presellLoop_match_type (env : CheckEnv) (bi : BrandInfo) (base : DomainBrandCheck)
    (urls : List String) (r : DomainBrandCheck) (h : presellLoop env bi base urls = some r) :
    r.match_type = "presell_cta" ∨ r.match_type = "checkout_match" := by
  induction urls with
  | nil => simp [presellLoop] at h
  | cons u rest ih =>
    simp only [presellLoop] at h
    split at h
    · split at h
      · split at h
        · simp only [Option.some.injEq] at h
          subst h; left; rfl
        · split at h
          · split at h
            · simp only [Option.some.injEq] at h
              subst h; right; rfl
            · exact ih h
          · exact ih h
      · exact ih h
    · exact ih h

theorem landingUrlLoop_match_type (bi : BrandInfo) (base : DomainBrandCheck)
    (entries : List (String × ℕ)) (r : DomainBrandCheck)
    (h : landingUrlLoop bi base entries = some r) :
    r.match_type = "redirect" ∨ r.match_type = "content_link" := by
  induction entries with
  | nil => simp [landingUrlLoop] at h
  | cons e rest ih =>
    obtain ⟨fullUrl, cnt⟩ := e
    simp only [landingUrlLoop] at h
    split at h
    · simp only [Option.some.injEq] at h
      rename_i heq
      split at heq
      · split at heq
        · simp only [Option.some.injEq] at heq
          subst heq
          subst h
          left; rfl
        · exact absurd heq (by simp)
      · exact absurd heq (by simp)
    · split at h
      · simp only [Option.some.injEq] at h
        rename_i heq
        split at heq
        · split at heq
          · simp only [Option.some.injEq] at heq
            subst heq
            subst h
            right; rfl
          · exact absurd heq (by simp)
        · exact absurd heq (by simp)
      · exact ih h

theorem landingFetchLoop_match_type (env : CheckEnv) (bi : BrandInfo) (bd : String)
    (base : DomainBrandCheck) (urls : List String) (r : DomainBrandCheck)
    (h : landingFetchLoop env bi bd base urls = some r) :
    r.match_type = "content_link" ∨ r.match_type = "content_match" := by
  induction urls with
  | nil => simp [landingFetchLoop] at h
  | cons u rest ih =>
    simp only [landingFetchLoop] at h
    split at h
    · split at h
      · simp only [Option.some.injEq] at h
        subst h; left; rfl
      · split at h
        · simp only [Option.some.injEq] at h
          subst h; right; rfl
        · exact ih h
    · exact ih h

theorem dualCaptionLoop_match_type (bi : BrandInfo) (dl : String) (base : DomainBrandCheck)
    (captions : List String) (r : DomainBrandCheck)
    (h : dualCaptionLoop bi dl base captions = some r) : r.match_type = "content_link" := by
  induction captions with
  | nil => simp [dualCaptionLoop] at h
  | cons c rest ih =>
    simp only [dualCaptionLoop] at h
    split at h
    · split at h
      · simp only [Option.some.injEq] at h
        subst h; rfl
      · exact ih h
    · exact ih h

theorem dualAdLoop_match_type (bi : BrandInfo) (dl : String) (base : DomainBrandCheck)
    (ads : List MetaAd) (r : DomainBrandCheck)
    (h : dualAdLoop bi dl base ads = some r) : r.match_type = "content_link" := by
  induction ads with
  | nil => simp [dualAdLoop] at h
  | cons ad rest ih =>
    simp only [dualAdLoop] at h
    split at h
    · split at h
      · rename_i heq
        simp only [Option.some.injEq] at h
        subst h
        exact dualCaptionLoop_match_type _ _ _ _ _ heq
      · exact ih h
    · exact ih h

theorem sbLinkLoop_match_type (bi : BrandInfo) (base : DomainBrandCheck)
    (links : List String) (r : DomainBrandCheck)
    (h : sbLinkLoop bi base links = some r) : r.match_type = "presell_cta" := by
  induction links with
  | nil => simp [sbLinkLoop] at h
  | cons l rest ih =>
    simp only [sbLinkLoop] at h
    split at h
    · split at h
      · simp only [Option.some.injEq] at h
        subst h; rfl
      · exact ih h
    · exact ih h

theorem sbCtaLoop_match_type (env : CheckEnv) (bi : BrandInfo) (base : DomainBrandCheck)
    (links : List String) (r : DomainBrandCheck)
    (h : sbCtaLoop env bi base links = some r) : r.match_type = "presell_cta" := by
  induction links with
  | nil => simp [sbCtaLoop] at h
  | cons l rest ih =>
    simp only [sbCtaLoop] at h
    split at h
    · split at h
      · split at h
        · simp only [Option.some.injEq] at h
          subst h; rfl
        · exact ih h
      · exact ih h
    · exact ih h

theorem scrapingbeeStep_match_type (env : CheckEnv) (bi : BrandInfo) (bd domain : String)
    (options : DomainCheckOptions) (base : DomainBrandCheck) (r : DomainBrandCheck)
    (h : scrapingbeeStep env bi bd domain options base = some r) :
    r.match_type = "presell_cta" ∨ r.match_type = "content_link" ∨
      r.match_type = "content_match" := by
  simp only [scrapingbeeStep] at h
  split at h
  · split at h
    · split at h
      · rename_i heq
        simp only [Option.some.injEq] at h
        subst h
        exact Or.inl (sbLinkLoop_match_type _ _ _ _ heq)
      · split at h
        · simp only [Option.some.injEq] at h
          subst h
          exact Or.inr (Or.inl rfl)
        · split at h
          · simp only [Option.some.injEq] at h
            subst h
            exact Or.inr (Or.inr rfl)
          · exact Or.inl (sbCtaLoop_match_type _ _ _ _ _ h)
    · exact absurd h (by simp)
  · exact absurd h (by simp)

theorem htmlChecks_match_type (env : CheckEnv) (bi : BrandInfo) (bd domain : String)
    (base : DomainBrandCheck) (html : String) (r : DomainBrandCheck)
    (h : htmlChecks env bi bd domain base html = some r) :
    r.match_type = "shopify_vendor" ∨ r.match_type = "content_link" ∨
      r.match_type = "content_match" := by
  simp only [htmlChecks] at h
  split at h
  · rename_i heq
    simp only [Option.some.injEq] at h
    subst h
    split at heq
    · split at heq
      · simp only [Option.some.injEq] at heq
        subst heq
        exact Or.inl rfl
      · exact absurd heq (by simp)
    · exact absurd heq (by simp)
  · split at h
    · simp only [Option.some.injEq] at h
      subst h
      exact Or.inr (Or.inl rfl)
    · split at h
      · simp only [Option.some.injEq] at h
        subst h
        exact Or.inr (Or.inr rfl)
      · exact absurd h (by simp)

theorem fetchedSteps_match_type (env : CheckEnv) (domain : String) (bi : BrandInfo)
    (options : DomainCheckOptions) (bd : String) (base : DomainBrandCheck)
    (fr : FetchResult) (r : DomainBrandCheck)
    (h : fetchedSteps env domain bi options bd base fr = some r) :
    r.match_type = "redirect" ∨ r.match_type = "shopify_vendor" ∨
      r.match_type = "content_link" ∨ r.match_type = "content_match" ∨
      r.match_type = "presell_cta" ∨ r.match_type = "checkout_match" := by
  simp only [fetchedSteps] at h
  split at h
  · rename_i r1 heq
    simp only [Option.some.injEq] at h
    subst h
    split at heq
    · split at heq
      · simp only [Option.some.injEq] at heq
        subst heq
        exact Or.inl rfl
      · simp at heq
    · simp at heq
  · split at h
    · rename_i r1 heq
      simp only [Option.some.injEq] at h
      subst h
      split at heq
      · rcases htmlChecks_match_type _ _ _ _ _ _ _ heq with h1 | h1 | h1
        · exact Or.inr (Or.inl h1)
        · exact Or.inr (Or.inr (Or.inl h1))
        · exact Or.inr (Or.inr (Or.inr (Or.inl h1)))
      · simp at heq
    · rcases presellLoop_match_type _ _ _ _ _ h with h1 | h1
      · exact Or.inr (Or.inr (Or.inr (Or.inr (Or.inl h1))))
      · exact Or.inr (Or.inr (Or.inr (Or.inr (Or.inr h1))))

theorem postFetchSteps_match_type (env : CheckEnv) (domain : String) (bi : BrandInfo)
    (options : DomainCheckOptions) (bd : String) (base : DomainBrandCheck) :
    postFetchSteps env domain bi options bd base = base ∨
      (postFetchSteps env domain bi options bd base).match_type = "redirect" ∨
      (postFetchSteps env domain bi options bd base).match_type = "content_link" ∨
      (postFetchSteps env domain bi options bd base).match_type = "content_match" ∨
      (postFetchSteps env domain bi options bd base).match_type = "presell_cta" := by
  simp only [postFetchSteps]
  split
  · rename_i r1 heq
    split at heq
    · split at heq
      · split at heq
        · rename_i r2 hl
          simp only [Option.some.injEq] at heq
          subst heq
          rcases landingUrlLoop_match_type _ _ _ _ hl with h1 | h1
          · exact Or.inr (Or.inl h1)
          · exact Or.inr (Or.inr (Or.inl h1))
        · rename_i hl
          rcases landingFetchLoop_match_type _ _ _ _ _ _ heq with h1 | h1
          · exact Or.inr (Or.inr (Or.inl h1))
          · exact Or.inr (Or.inr (Or.inr (Or.inl h1)))
      · simp at heq
    · simp at heq
  · split
    · rename_i r1 heq
      split at heq
      · split at heq
        · exact Or.inr (Or.inr (Or.inl (dualAdLoop_match_type _ _ _ _ _ heq)))
        · simp at heq
      · simp at heq
    · split
      · rename_i r1 heq
        rcases scrapingbeeStep_match_type _ _ _ _ _ _ _ heq with h1 | h1 | h1
        · exact Or.inr (Or.inr (Or.inr (Or.inr h1)))
        · exact Or.inr (Or.inr (Or.inl h1))
        · exact Or.inr (Or.inr (Or.inr (Or.inl h1)))
      · exact Or.inl rfl

theorem checkDomainForBrand_direct_only (env : CheckEnv) (domain : String) (bi : BrandInfo)
    (options : DomainCheckOptions)
    (h : (checkDomainForBrand env domain bi options).match_type = "direct") :
    optTruthy bi.brand_domain = true ∧
      jsToLower domain = jsToLower (bi.brand_domain.getD "") := by
  by_cases ht : optTruthy bi.brand_domain
  · refine ⟨ht, ?_⟩
    by_cases hd : jsToLower domain = jsToLower (bi.brand_domain.getD "")
    · exact hd
    · exfalso
      revert h
      simp only [checkDomainForBrand]
      rw [if_neg (by simpa using ht), if_neg hd]
      split
      · split
        · rename_i heq
          intro h
          rcases fetchedSteps_match_type _ _ _ _ _ _ _ _ heq with
            h1 | h1 | h1 | h1 | h1 | h1 <;> rw [h1] at h <;> exact absurd h (by decide)
        · intro h
          rcases postFetchSteps_match_type env domain bi options
              (jsToLower (bi.brand_domain.getD ""))
              { noMatchCheck domain with final_url := _, redirect_chain := _ } with
            h1 | h1 | h1 | h1 | h1
          · rw [h1] at h
            simp [noMatchCheck] at h
          all_goals (rw [h1] at h; exact absurd h (by decide))
      · intro h
        rcases postFetchSteps_match_type env domain bi options
            (jsToLower (bi.brand_domain.getD "")) (noMatchCheck domain) with
          h1 | h1 | h1 | h1 | h1
        · rw [h1] at h
          simp [noMatchCheck] at h
        all_goals (rw [h1] at h; exact absurd h (by decide))
  · exfalso
    simp only [checkDomainForBrand] at h
    rw [if_pos (by simpa using ht)] at h
    simp [noMatchCheck] at h

theorem foldl_preserve {α σ : Type} (f : σ → α → σ) (P : σ → Prop)
    (hstep : ∀ s a, P s → P (f s a)) : ∀ (l : List α) (s : σ), P s → P (l.foldl f s) := by
  intro l
  induction l with
  | nil => intro s hs; exact hs
  | cons a rest ih => intro s hs; exact ih (f s a) (hstep s a hs)

theorem processCaption_inv (bi : BrandInfo) (pageId caption : String) (st : ExtractState)
    (h : extractInv bi st) : extractInv bi (processCaption bi pageId st caption) := by
  unfold processCaption
  cases hdom : extractDomainFromCaption (some caption) with
  | none => exact h
  | some domain =>
    simp only []
    set dl := jsToLower domain with hdl
    set st1 := (match extractFullUrlFromCaption (some caption) with
      | some fullUrl =>
        let urlMap := (alGet st.domainFullUrls dl).getD []
        { st with domainFullUrls := (alSet st.domainFullUrls dl
            (alSet urlMap fullUrl ((alGet urlMap fullUrl).getD 0 + 1))) }
      | none => st) with hst1
    have h1 : extractInv bi st1 ∧ st1.brandDomains = st.brandDomains := by
      rw [hst1]
      cases extractFullUrlFromCaption (some caption) with
      | none => exact ⟨h, rfl⟩
      | some fullUrl => exact ⟨⟨h.1, h.2⟩, rfl⟩
    by_cases c1 : dl ∈ st1.brandDomains
    · simp only [if_pos c1]
      exact h1.1
    · rw [if_neg c1]
      by_cases c2 : dl ∈ excludedDomains ∨
          excludedDomains.any (fun ed => strEnds dl ("." ++ ed)) = true
      · rw [if_pos c2]
        exact h1.1
      · rw [if_neg c2]
        by_cases c3 : bi.brand_aliases.any (fun ali => strContains dl (stripSpaces ali)) = true
        · rw [if_pos c3]
          exact ⟨h1.1.1, fun d hd => mem_setAdd_of_mem _ _ _ (h1.1.2 d hd)⟩
        · rw [if_neg c3]
          have hkeyok : candidateKeyOk bi dl := by
            refine ⟨?_, ?_, ?_⟩
            · intro hmem
              exact c1 (h1.1.2 dl hmem)
            · exact eq_false_of_ne_true c3
            · rw [hdl]
              exact jsToLower_idem domain
          have hkeys : ∀ k ∈ (alSet st1.domainPageMap dl
              (if pageId ∈ (alGet st1.domainPageMap dl).getD [] then
                (alGet st1.domainPageMap dl).getD []
              else (alGet st1.domainPageMap dl).getD [] ++ [pageId])).map (·.1),
              candidateKeyOk bi k := by
            intro k hkmem
            by_cases hpre : dl ∈ st1.domainPageMap.map (·.1)
            · rw [alSet_keys_of_key _ _ _ hpre] at hkmem
              exact h1.1.1 k hkmem
            · rw [alSet_keys_of_not_key _ _ _ hpre] at hkmem
              rcases List.mem_append.mp hkmem with hk | hk
              · exact h1.1.1 k hk
              · rw [List.mem_singleton.mp hk]
                exact hkeyok
          split
          · exact ⟨hkeys, h1.1.2⟩
          · exact ⟨hkeys, h1.1.2⟩

theorem processAd_inv (bi : BrandInfo) (st : ExtractState) (ad : MetaAd)
    (h : extractInv bi st) : extractInv bi (processAd bi st ad) := by
  unfold processAd
  simp only []
  split
  · exact foldl_preserve _ (extractInv bi)
      (fun s c hs => processCaption_inv bi _ c s hs) _ _ ⟨h.1, h.2⟩
  · exact ⟨h.1, h.2⟩

theorem extractUniqueDomains_inv (ads : List MetaAd) (bi : BrandInfo) :
    extractInv bi (extractUniqueDomains ads bi) := by
  unfold extractUniqueDomains
  refine foldl_preserve _ (extractInv bi) (fun s a hs => processAd_inv bi s a hs) ads _ ?_
  exact ⟨by simp, fun d hd => hd⟩

/-- C10: the candidate-domain map never contains the brand's resolved
domain or its `<store>.myshopify.com` variant as a key, none of its keys
contains a (whitespace-stripped) brand alias, and consequently the
verification cascade's Direct step never fires on a candidate drawn
from this map — under any network environment and options. -/
theorem C10_candidate_map_never_direct (ads : List MetaAd) (brandInfo : BrandInfo)
    (k : String)
    (hk : k ∈ (extractUniqueDomains ads brandInfo).domainPageMap.map (·.1)) :
    (∀ bd, brandInfo.brand_domain = some bd → bd ≠ "" → k ≠ jsToLower bd) ∧
    (∀ bd stn, brandInfo.brand_domain = some bd → bd ≠ "" →
      brandInfo.shopify_store = some stn → stn ≠ "" → k ≠ stn ++ ".myshopify.com") ∧
    (∀ ali ∈ brandInfo.brand_aliases, strContains k (stripSpaces ali) = false) ∧
    (∀ (env : CheckEnv) (options : DomainCheckOptions),
      (checkDomainForBrand env k brandInfo options).match_type ≠ "direct") := by
  obtain ⟨hkey, -⟩ := extractUniqueDomains_inv ads brandInfo
  obtain ⟨hni, hali, hlow⟩ := hkey k hk
  have hbdmem : ∀ bd, brandInfo.brand_domain = some bd → bd ≠ "" →
      jsToLower bd ∈ initialBrandDomains brandInfo := by
    intro bd hbd hne
    unfold initialBrandDomains
    rw [if_pos (by simp [optTruthy, hbd, hne])]
    simp only [hbd, Option.getD_some]
    split
    · exact mem_setAdd_of_mem _ _ _ (mem_setAdd_self _ _)
    · exact mem_setAdd_self _ _
  refine ⟨?_, ?_, ?_, ?_⟩
  · intro bd hbd hne heq
    exact hni (heq ▸ hbdmem bd hbd hne)
  · intro bd stn hbd hne hst hstne heq
    apply hni
    rw [heq]
    unfold initialBrandDomains
    rw [if_pos (by simp [optTruthy, hbd, hne])]
    rw [if_pos (by simp [optTruthy, hst, hstne])]
    simp only [hst, Option.getD_some]
    exact mem_setAdd_self _ _
  · intro ali hmem
    by_contra hc
    have : strContains k (stripSpaces ali) = true := by
      revert hc
      cases strContains k (stripSpaces ali) <;> simp
    exact (Bool.eq_false_iff.mp hali) (List.any_eq_true.mpr ⟨ali, hmem, this⟩)
  · intro env options habs
    obtain ⟨ht, heq⟩ := checkDomainForBrand_direct_only env k brandInfo options habs
    obtain ⟨bd, hbd⟩ : ∃ bd, brandInfo.brand_domain = some bd := by
      cases hb : brandInfo.brand_domain with
      | none => rw [hb] at ht; simp [optTruthy] at ht
      | some b => exact ⟨b, rfl⟩
    have hne : bd ≠ "" := by
      rw [hbd] at ht
      simpa [optTruthy] using ht
    rw [hbd] at heq
    simp only [Option.getD_some] at heq
    have : k = jsToLower bd := by rw [← hlow, heq]
    exact hni (this ▸ hbdmem bd hbd hne)

set_option maxRecDepth 40000 in
/-- Witness for `C10_candidate_map_never_direct` at the concrete ad list:
the only candidate key is `healthblog.example`. -/
theorem C10_candidate_map_never_direct_witness :
    (∀ bd, glowBrand.brand_domain = some bd → bd ≠ "" →
      "healthblog.example" ≠ jsToLower bd) ∧
    (∀ bd stn, glowBrand.brand_domain = some bd → bd ≠ "" →
      glowBrand.shopify_store = some stn → stn ≠ "" →
      "healthblog.example" ≠ stn ++ ".myshopify.com") ∧
    (∀ ali ∈ glowBrand.brand_aliases,
      strContains "healthblog.example" (stripSpaces ali) = false) ∧
    (∀ (env : CheckEnv) (options : DomainCheckOptions),
      (checkDomainForBrand env "healthblog.example" glowBrand options).match_type ≠ "direct") :=
  C10_candidate_map_never_direct kwAds glowBrand "healthblog.example" (by decide)

/-! ### C8 — the third-party page merge -/

theorem mem_alSet {β : Type} (m : List (String × β)) (k : String) (v : β) (p : String × β)
    (h : p ∈ alSet m k v) : p ∈ m ∨ p = (k, v) := by
  induction m with
  | nil => simpa [alSet] using h
  | cons q rest ih =>
    by_cases hq : q.1 = k
    · simp only [alSet, if_pos hq] at h
      rcases List.mem_cons.mp h with h | h
      · exact Or.inr h
      · exact Or.inl (List.mem_cons_of_mem _ h)
    · simp only [alSet, if_neg hq] at h
      rcases List.mem_cons.mp h with h | h
      · exact Or.inl (h ▸ List.mem_cons_self _ _)
      · rcases ih h with h | h
        · exact Or.inl (List.mem_cons_of_mem _ h)
        · exact Or.inr h

theorem mem_setAdd_iff (s : List String) (x y : String) :
    y ∈ setAdd s x ↔ y ∈ s ∨ y = x := by
  by_cases h : x ∈ s
  · simp only [setAdd, if_pos h]
    constructor
    · exact Or.inl
    · rintro (hy | rfl)
      · exact hy
      · exact h
  · simp only [setAdd, if_neg h, List.mem_append, List.mem_singleton]

theorem inner_fold_eq (ap : List (String × PageAgg)) (pnl : List (String × String))
    (off : List String) (m : DomainBrandCheck) :
    ∀ (pids : List String) (acc : List (String × ThirdPartyPageInfo)),
      pids.foldl
        (fun acc2 pageId =>
          if pageId ∈ off then acc2 else insertThirdPartyPage ap pnl acc2 m pageId) acc =
      ((pids.filter (fun pid => pid ∉ off)).map (fun pid => (m, pid))).foldl
        (fun acc2 pr => insertThirdPartyPage ap pnl acc2 pr.1 pr.2) acc := by
  intro pids
  induction pids with
  | nil => intro acc; rfl
  | cons pid rest ih =>
    intro acc
    by_cases hoff : pid ∈ off
    · simp only [List.foldl_cons, if_pos hoff, List.filter_cons,
        decide_eq_true_eq]
      rw [if_neg (by simpa using hoff)]
      exact ih acc
    · simp only [List.foldl_cons, if_neg hoff, List.filter_cons]
      rw [if_pos (by simpa using hoff)]
      simp only [List.map_cons, List.foldl_cons]
      exact ih _

theorem buildThirdPartyMap_eq_pairs (bi : BrandInfo) (ap : List (String × PageAgg))
    (pnl : List (String × String)) (matched : List DomainBrandCheck) :
    buildThirdPartyMap bi ap pnl matched =
      (tpPairs bi.official_page_ids matched).foldl
        (fun acc pr => insertThirdPartyPage ap pnl acc pr.1 pr.2) [] := by
  have aux : ∀ (ms : List DomainBrandCheck) (acc : List (String × ThirdPartyPageInfo)),
      ms.foldl
        (fun acc m =>
          m.page_ids.foldl
            (fun acc2 pageId =>
              if pageId ∈ bi.official_page_ids then acc2
              else insertThirdPartyPage ap pnl acc2 m pageId) acc) acc =
      (tpPairs bi.official_page_ids ms).foldl
        (fun acc pr => insertThirdPartyPage ap pnl acc pr.1 pr.2) acc := by
    intro ms
    induction ms with
    | nil => intro acc; rfl
    | cons m rest ih =>
      intro acc
      simp only [List.foldl_cons, tpPairs, List.flatMap_cons, List.foldl_append]
      rw [inner_fold_eq ap pnl bi.official_page_ids m m.page_ids acc]
      exact ih _
  exact aux matched []

theorem tpInv_insert_fresh (processed : List (DomainBrandCheck × String))
    (acc : List (String × ThirdPartyPageInfo)) (m : DomainBrandCheck) (pid : String)
    (newE : ThirdPartyPageInfo) (h : tpInv processed acc) (hget : alGet acc pid = none)
    (hpageId : newE.page_id = pid) (htype : newE.connection_type = m.match_type)
    (hconf : newE.confidence = m.confidence) (had : newE.ad_count = m.ad_count) :
    tpInv (processed ++ [(m, pid)]) (alSet acc pid newE) := by
  obtain ⟨hpage, hnd, hiff, hprops⟩ := h
  have hnotkey : pid ∉ acc.map (·.1) := (alGet_none_iff_not_key acc pid).mp hget
  have hnoproc : ¬ ∃ pr ∈ processed, pr.2 = pid := fun hex => hnotkey ((hiff pid).mpr hex)
  have hkeys : (alSet acc pid newE).map (·.1) = acc.map (·.1) ++ [pid] :=
    alSet_keys_of_not_key acc pid newE hnotkey
  refine ⟨?_, ?_, ?_, ?_⟩
  · intro p hp
    rcases mem_alSet acc pid newE p hp with hp | hp
    · exact hpage p hp
    · rw [hp]; exact hpageId
  · rw [hkeys]
    rw [List.nodup_append]
    exact ⟨hnd, List.nodup_singleton pid, by
      intro a ha hb
      rw [List.mem_singleton] at hb
      exact hnotkey (hb ▸ ha)⟩
  · intro k
    rw [hkeys, List.mem_append, List.mem_singleton, hiff k]
    constructor
    · rintro (⟨pr, hpr, hk⟩ | rfl)
      · exact ⟨pr, List.mem_append_left _ hpr, hk⟩
      · exact ⟨(m, k), List.mem_append_right _ (List.mem_singleton_self _), rfl⟩
    · rintro ⟨pr, hpr, hk⟩
      rcases List.mem_append.mp hpr with hpr | hpr
      · exact Or.inl ⟨pr, hpr, hk⟩
      · rw [List.mem_singleton] at hpr
        subst hpr
        exact Or.inr hk.symm
  · intro k e hke
    by_cases hk : k = pid
    · subst hk
      rw [alGet_alSet_self] at hke
      injection hke with hke
      subst hke
      have hfe : processed.filter (fun pr => pr.2 = k) = [] := by
        rw [List.filter_eq_nil_iff]
        intro pr hpr
        simp only [decide_eq_true_eq]
        exact fun hc => hnoproc ⟨pr, hpr, hc⟩
      refine ⟨⟨(m, k), List.mem_append_right _ (List.mem_singleton_self _),
          rfl, htype.symm, hconf.symm⟩, ?_, ?_⟩
      · intro pr hpr hk2
        rcases List.mem_append.mp hpr with hpr | hpr
        · exact absurd ⟨pr, hpr, hk2⟩ hnoproc
        · rw [List.mem_singleton] at hpr
          subst hpr
          exact le_of_eq hconf.symm
      · rw [List.filter_append, hfe, List.nil_append]
        simp [had]
    · rw [alGet_alSet_ne acc pid k newE hk] at hke
      obtain ⟨hex, hall, hsum⟩ := hprops k e hke
      refine ⟨?_, ?_, ?_⟩
      · obtain ⟨pr, hpr, hrest⟩ := hex
        exact ⟨pr, List.mem_append_left _ hpr, hrest⟩
      · intro pr hpr hk2
        rcases List.mem_append.mp hpr with hpr | hpr
        · exact hall pr hpr hk2
        · rw [List.mem_singleton] at hpr
          subst hpr
          exact absurd hk2.symm hk
      · rw [List.filter_append]
        have : List.filter (fun pr => decide (pr.2 = k)) [(m, pid)] = [] := by
          simp [Ne.symm hk]
        rw [this, List.append_nil]
        exact hsum

theorem tpInv_insert_update (processed : List (DomainBrandCheck × String))
    (acc : List (String × ThirdPartyPageInfo)) (m : DomainBrandCheck) (pid : String)
    (existing e' : ThirdPartyPageInfo) (h : tpInv processed acc)
    (hget : alGet acc pid = some existing) (hpageId : e'.page_id = existing.page_id)
    (hcc : (existing.confidence < m.confidence ∧ e'.connection_type = m.match_type ∧
        e'.confidence = m.confidence) ∨
      (¬ existing.confidence < m.confidence ∧
        e'.connection_type = existing.connection_type ∧
        e'.confidence = existing.confidence))
    (had : e'.ad_count = existing.ad_count + m.ad_count) :
    tpInv (processed ++ [(m, pid)]) (alSet acc pid e') := by
  obtain ⟨hpage, hnd, hiff, hprops⟩ := h
  have hexmem : (pid, existing) ∈ acc := mem_of_alGet_eq_some acc pid existing hget
  have hexpage : existing.page_id = pid := hpage (pid, existing) hexmem
  have hkeymem : pid ∈ acc.map (·.1) := List.mem_map.mpr ⟨(pid, existing), hexmem, rfl⟩
  have hkeys : (alSet acc pid e').map (·.1) = acc.map (·.1) :=
    alSet_keys_of_key acc pid e' hkeymem
  obtain ⟨hex_old, hall_old, hsum_old⟩ := hprops pid existing hget
  have hconf_mono : existing.confidence ≤ e'.confidence := by
    rcases hcc with ⟨hlt, -, hc⟩ | ⟨-, -, hc⟩
    · rw [hc]; exact le_of_lt hlt
    · rw [hc]
  have hm_le : m.confidence ≤ e'.confidence := by
    rcases hcc with ⟨-, -, hc⟩ | ⟨hge, -, hc⟩
    · rw [hc]
    · rw [hc]; exact le_of_not_lt hge
  refine ⟨?_, ?_, ?_, ?_⟩
  · intro p hp
    rcases mem_alSet acc pid e' p hp with hp | hp
    · exact hpage p hp
    · rw [hp]
      rw [hpageId, hexpage]
  · rw [hkeys]; exact hnd
  · intro k
    rw [hkeys, hiff k]
    constructor
    · rintro ⟨pr, hpr, hk⟩
      exact ⟨pr, List.mem_append_left _ hpr, hk⟩
    · rintro ⟨pr, hpr, hk⟩
      rcases List.mem_append.mp hpr with hpr | hpr
      · exact ⟨pr, hpr, hk⟩
      · rw [List.mem_singleton] at hpr
        subst hpr
        have hk2 : pid = k := hk
        subst hk2
        exact (hiff pid).mp hkeymem
  · intro k e hke
    by_cases hk : k = pid
    · subst hk
      rw [alGet_alSet_self] at hke
      injection hke with hke
      subst hke
      refine ⟨?_, ?_, ?_⟩
      · rcases hcc with ⟨hlt, ht, hc⟩ | ⟨hge, ht, hc⟩
        · exact ⟨(m, k), List.mem_append_right _ (List.mem_singleton_self _),
            rfl, ht.symm, hc.symm⟩
        · obtain ⟨pr, hpr, hk2, htp, hcp⟩ := hex_old
          exact ⟨pr, List.mem_append_left _ hpr, hk2, by rw [htp, ht],
            by rw [hcp, hc]⟩
      · intro pr hpr hk2
        rcases List.mem_append.mp hpr with hpr | hpr
        · exact le_trans (hall_old pr hpr hk2) hconf_mono
        · rw [List.mem_singleton] at hpr
          subst hpr
          exact hm_le
      · rw [List.filter_append]
        have hone : List.filter (fun pr => decide (pr.2 = k)) [(m, k)] = [(m, k)] := by
          simp
        rw [hone, List.map_append, List.sum_append]
        simp only [List.map_cons, List.map_nil, List.sum_cons, List.sum_nil]
        rw [had, hsum_old]
        omega
    · rw [alGet_alSet_ne acc pid k e' hk] at hke
      obtain ⟨hex2, hall2, hsum2⟩ := hprops k e hke
      refine ⟨?_, ?_, ?_⟩
      · obtain ⟨pr, hpr, hrest⟩ := hex2
        exact ⟨pr, List.mem_append_left _ hpr, hrest⟩
      · intro pr hpr hk2
        rcases List.mem_append.mp hpr with hpr | hpr
        · exact hall2 pr hpr hk2
        · rw [List.mem_singleton] at hpr
          subst hpr
          exact absurd hk2.symm hk
      · rw [List.filter_append]
        have : List.filter (fun pr => decide (pr.2 = k)) [(m, pid)] = [] := by
          simp [Ne.symm hk]
        rw [this, List.append_nil]
        exact hsum2

theorem tpInv_step (ap : List (String × PageAgg)) (pnl : List (String × String))
    (processed : List (DomainBrandCheck × String))
    (acc : List (String × ThirdPartyPageInfo)) (m : DomainBrandCheck) (pid : String)
    (h : tpInv processed acc) :
    tpInv (processed ++ [(m, pid)]) (insertThirdPartyPage ap pnl acc m pid) := by
  cases hget : alGet acc pid with
  | none =>
    simp only [insertThirdPartyPage, hget]
    exact tpInv_insert_fresh processed acc m pid _ h hget rfl rfl rfl rfl
  | some existing =>
    simp only [insertThirdPartyPage, hget]
    by_cases hc : existing.confidence < m.confidence
    · simp only [if_pos hc]
      split
      · exact tpInv_insert_update processed acc m pid existing _ h hget rfl
          (Or.inl ⟨hc, rfl, rfl⟩) rfl
      · exact tpInv_insert_update processed acc m pid existing _ h hget rfl
          (Or.inl ⟨hc, rfl, rfl⟩) rfl
    · simp only [if_neg hc]
      split
      · exact tpInv_insert_update processed acc m pid existing _ h hget rfl
          (Or.inr ⟨hc, rfl, rfl⟩) rfl
      · exact tpInv_insert_update processed acc m pid existing _ h hget rfl
          (Or.inr ⟨hc, rfl, rfl⟩) rfl

theorem tpInv_fold (ap : List (String × PageAgg)) (pnl : List (String × String))
    (pairs : List (DomainBrandCheck × String)) :
    ∀ (processed : List (DomainBrandCheck × String))
      (acc : List (String × ThirdPartyPageInfo)), tpInv processed acc →
      tpInv (processed ++ pairs)
        (pairs.foldl (fun a pr => insertThirdPartyPage ap pnl a pr.1 pr.2) acc) := by
  induction pairs with
  | nil =>
    intro processed acc h
    simpa using h
  | cons pr rest ih =>
    intro processed acc h
    have h1 := tpInv_step ap pnl processed acc pr.1 pr.2 h
    have h2 := ih (processed ++ [(pr.1, pr.2)]) _ h1
    rw [List.append_assoc] at h2
    exact h2

theorem tpInv_init : tpInv [] [] := by
  refine ⟨?_, ?_, ?_, ?_⟩
  · intro p hp
    simp at hp
  · simp
  · intro k
    simp
  · intro k e hke
    simp [alGet] at hke

theorem buildThirdPartyMap_inv (bi : BrandInfo) (ap : List (String × PageAgg))
    (pnl : List (String × String)) (matched : List DomainBrandCheck) :
    tpInv (tpPairs bi.official_page_ids matched) (buildThirdPartyMap bi ap pnl matched) := by
  rw [buildThirdPartyMap_eq_pairs]
  have h := tpInv_fold ap pnl (tpPairs bi.official_page_ids matched) [] [] tpInv_init
  simpa using h

theorem mem_tpPairs (officialIds : List String) (matched : List DomainBrandCheck)
    (pr : DomainBrandCheck × String) :
    pr ∈ tpPairs officialIds matched ↔
      pr.1 ∈ matched ∧ pr.2 ∈ pr.1.page_ids ∧ pr.2 ∉ officialIds := by
  simp only [tpPairs, List.mem_flatMap, List.mem_map, List.mem_filter,
    decide_eq_true_eq]
  constructor
  · rintro ⟨m, hm, pid, ⟨hpid, hnotoff⟩, heq⟩
    rw [← heq]
    exact ⟨hm, hpid, hnotoff⟩
  · rintro ⟨hm, hpid, hnotoff⟩
    exact ⟨pr.1, hm, pr.2, ⟨hpid, hnotoff⟩, rfl⟩

theorem tpPairs_filter_sum (officialIds : List String) (matched : List DomainBrandCheck)
    (k : String) (hk : k ∉ officialIds) :
    ((((tpPairs officialIds matched).filter (fun pr => pr.2 = k)).map
        (fun pr => pr.1.ad_count)).sum)
      = (matched.map (fun m =>
          m.page_ids.countP (fun pid => pid = k) * m.ad_count)).sum := by
  induction matched with
  | nil => simp [tpPairs]
  | cons m rest ih =>
    have hsplit : tpPairs officialIds (m :: rest)
        = ((m.page_ids.filter (fun pid => pid ∉ officialIds)).map
            (fun pid => ((m, pid) : DomainBrandCheck × String)))
          ++ tpPairs officialIds rest := by
      simp [tpPairs]
    rw [hsplit, List.filter_append, List.map_append, List.sum_append, ih]
    simp only [List.map_cons, List.sum_cons]
    congr 1
    rw [List.filter_map, List.map_map]
    have hfil : List.filter
        ((fun pr => decide ((pr : DomainBrandCheck × String).2 = k)) ∘
          (fun pid => ((m, pid) : DomainBrandCheck × String)))
        (m.page_ids.filter (fun pid => decide (pid ∉ officialIds)))
        = List.filter (fun pid => decide (pid = k)) m.page_ids := by
      rw [List.filter_filter]
      apply List.filter_congr
      intro a _
      by_cases ha : a = k
      · subst ha
        simp [hk]
      · simp [ha]
    rw [hfil]
    have hconst : List.map
        ((fun pr => (pr : DomainBrandCheck × String).1.ad_count) ∘
          (fun pid => ((m, pid) : DomainBrandCheck × String)))
        (List.filter (fun pid => decide (pid = k)) m.page_ids)
        = List.replicate (List.filter (fun pid => decide (pid = k)) m.page_ids).length
            m.ad_count := by
      rw [List.map_eq_replicate_iff]
      intro b _
      rfl
    rw [hconst, List.sum_replicate, smul_eq_mul, List.countP_eq_length_filter]

/-- C8: in the report's third-party page list every page id appears
exactly once (no duplicates, and every non-official page id of a match
is present); each entry's connection type and confidence come from a
highest-confidence match whose page-id set contains that page, every
such match's confidence is at most the entry's, and the entry's ad
count accumulates the matches' ad counts (weighted by how often the
page id occurs in each match's page-id list). -/
theorem C8_third_party_merge (brandName : String) (brandInfo : BrandInfo)
    (matched : List DomainBrandCheck) (allAds : List MetaAd)
    (allPages : List (String × PageAgg)) (keywords : List String)
    (dm : List (String × ℕ)) (tdc : ℕ) (brandAds : List MetaAd)
    (dfu : List (String × List (String × ℕ))) :
    (((buildDiscoveryResult brandName brandInfo matched allAds allPages keywords dm
        tdc brandAds dfu).pages.third_party.map (fun p => p.page_id)).Nodup) ∧
    (∀ m ∈ matched, ∀ pid ∈ m.page_ids, pid ∉ brandInfo.official_page_ids →
      ∃ p ∈ (buildDiscoveryResult brandName brandInfo matched allAds allPages keywords dm
        tdc brandAds dfu).pages.third_party, p.page_id = pid) ∧
    (∀ p ∈ (buildDiscoveryResult brandName brandInfo matched allAds allPages keywords dm
        tdc brandAds dfu).pages.third_party,
      p.page_id ∉ brandInfo.official_page_ids ∧
      (∃ m ∈ matched, p.page_id ∈ m.page_ids ∧
        m.match_type = p.connection_type ∧ m.confidence = p.confidence) ∧
      (∀ m ∈ matched, p.page_id ∈ m.page_ids → m.confidence ≤ p.confidence) ∧
      p.ad_count = (matched.map (fun m =>
        m.page_ids.countP (fun pid => pid = p.page_id) * m.ad_count)).sum) := by
  have hproj : (buildDiscoveryResult brandName brandInfo matched allAds allPages keywords dm
        tdc brandAds dfu).pages.third_party
      = jsSortBy thirdPartySortLe
          ((buildThirdPartyMap brandInfo allPages (buildPageNameLookup brandAds allAds)
            matched).map (fun pr => pr.2)) := rfl
  rw [hproj]
  obtain ⟨hpage, hnd, hiff, hprops⟩ :=
    buildThirdPartyMap_inv brandInfo allPages (buildPageNameLookup brandAds allAds) matched
  set bmap := buildThirdPartyMap brandInfo allPages (buildPageNameLookup brandAds allAds)
    matched with hb
  refine ⟨?_, ?_, ?_⟩
  · have hmapeq : (bmap.map (fun pr => pr.2)).map (fun p => p.page_id)
        = bmap.map (fun pr => pr.1) := by
      rw [List.map_map]
      exact List.map_congr_left (fun pr hpr => hpage pr hpr)
    have hp : ((jsSortBy thirdPartySortLe (bmap.map (fun pr => pr.2))).map
          (fun p => p.page_id)).Perm
        ((bmap.map (fun pr => pr.2)).map (fun p => p.page_id)) :=
      (jsSortBy_perm _ _).map _
    rw [hmapeq] at hp
    exact hp.nodup_iff.mpr hnd
  · intro m hm pid hpid hoff
    have hpair : ((m, pid) : DomainBrandCheck × String)
        ∈ tpPairs brandInfo.official_page_ids matched :=
      (mem_tpPairs _ _ _).mpr ⟨hm, hpid, hoff⟩
    have hkey : pid ∈ bmap.map (fun pr => pr.1) := (hiff pid).mpr ⟨(m, pid), hpair, rfl⟩
    obtain ⟨pr, hpr, hpr1⟩ := List.mem_map.mp hkey
    refine ⟨pr.2, ?_, ?_⟩
    · rw [mem_jsSortBy]
      exact List.mem_map.mpr ⟨pr, hpr, rfl⟩
    · rw [hpage pr hpr, hpr1]
  · intro p hp
    rw [mem_jsSortBy] at hp
    obtain ⟨pr, hpr, hpr2⟩ := List.mem_map.mp hp
    have hkeyp : pr.1 = p.page_id := by
      rw [← hpr2]
      exact (hpage pr hpr).symm
    have hpreq : pr = (p.page_id, p) := Prod.ext hkeyp hpr2
    have hget : alGet bmap p.page_id = some p :=
      alGet_of_mem_nodup bmap p.page_id p (hpreq ▸ hpr) hnd
    obtain ⟨hex, hall, hsum⟩ := hprops p.page_id p hget
    obtain ⟨pr', hpr', hpr'k, hpr't, hpr'c⟩ := hex
    have hmem' := (mem_tpPairs _ _ pr').mp hpr'
    have hoff : p.page_id ∉ brandInfo.official_page_ids := hpr'k ▸ hmem'.2.2
    refine ⟨hoff, ⟨pr'.1, hmem'.1, hpr'k ▸ hmem'.2.1, hpr't, hpr'c⟩, ?_, ?_⟩
    · intro m hm hpid
      exact hall (m, p.page_id) ((mem_tpPairs _ _ _).mpr ⟨hm, hpid, hoff⟩) rfl
    · rw [hsum, tpPairs_filter_sum brandInfo.official_page_ids matched p.page_id hoff]

theorem runStep6Loop_is_match (batchAt : ℕ → Bool) (check : String → DomainBrandCheck)
    (pageMap : List (String × List String)) (adCount : List (String × ℕ)) :
    ∀ (fuel bIdx : ℕ) (doms : List String) (m : DomainBrandCheck),
      m ∈ (runStep6Loop batchAt check pageMap adCount fuel bIdx doms).1 →
      m.is_match = true := by
  intro fuel
  induction fuel with
  | zero =>
    intro bIdx doms m hm
    cases doms with
    | nil => simp [runStep6Loop] at hm
    | cons d ds => simp [runStep6Loop] at hm
  | succ f ih =>
    intro bIdx doms m hm
    cases doms with
    | nil => simp [runStep6Loop] at hm
    | cons d ds =>
      by_cases hb : batchAt bIdx
      · simp [runStep6Loop, hb] at hm
      · simp only [runStep6Loop, if_neg hb, Bool.false_eq_true] at hm
        rcases List.mem_append.mp hm with h | h
        · exact (List.mem_filter.mp h).2
        · exact ih (bIdx + 1) _ m h

theorem mem_foldl_setAdd (l : List String) :
    ∀ (acc : List String) (d : String), d ∈ l.foldl setAdd acc ↔ d ∈ acc ∨ d ∈ l := by
  induction l with
  | nil =>
    intro acc d
    simp
  | cons x rest ih =>
    intro acc d
    rw [List.foldl_cons, ih (setAdd acc x) d, mem_setAdd_iff]
    simp only [List.mem_cons]
    tauto

theorem mem_dedupList (l : List String) (d : String) : d ∈ dedupList l ↔ d ∈ l := by
  rw [dedupList, mem_foldl_setAdd]
  simp

theorem categorize_fold_sub (ms : List DomainBrandCheck) :
    ∀ (acc : List String × List String × List String) (d : String),
      (d ∈ (ms.foldl categorizeStep acc).1 ∨ d ∈ (ms.foldl categorizeStep acc).2.1 ∨
        d ∈ (ms.foldl categorizeStep acc).2.2) →
      (d ∈ acc.1 ∨ d ∈ acc.2.1 ∨ d ∈ acc.2.2) ∨ ∃ m ∈ ms, m.domain = d := by
  induction ms with
  | nil =>
    intro acc d h
    rw [List.foldl_nil] at h
    exact Or.inl h
  | cons m rest ih =>
    intro acc d h
    rw [List.foldl_cons] at h
    rcases ih (categorizeStep acc m) d h with h2 | h2
    · have hstep : (d ∈ acc.1 ∨ d ∈ acc.2.1 ∨ d ∈ acc.2.2) ∨ d = m.domain := by
        rcases acc with ⟨p, r, s⟩
        simp only [categorizeStep] at h2
        split_ifs at h2 <;>
          simp only [List.mem_append, List.mem_singleton] at h2 <;> tauto
      rcases hstep with h3 | h3
      · exact Or.inl h3
      · exact Or.inr ⟨m, List.mem_cons_self m rest, h3.symm⟩
    · obtain ⟨m', hm', hd⟩ := h2
      exact Or.inr ⟨m', List.mem_cons_of_mem m hm', hd⟩

theorem categorizeDomains_sub (ms : List DomainBrandCheck) (d : String)
    (h : d ∈ (categorizeDomains ms).1 ∨ d ∈ (categorizeDomains ms).2.1 ∨
      d ∈ (categorizeDomains ms).2.2) : ∃ m ∈ ms, m.domain = d := by
  rcases categorize_fold_sub ms ([], [], []) d h with h2 | h2
  · simp at h2
  · exact h2

theorem third_party_assoc (bi : BrandInfo) (ap : List (String × PageAgg))
    (pnl : List (String × String)) (matched : List DomainBrandCheck) :
    ∀ p ∈ jsSortBy thirdPartySortLe
        ((buildThirdPartyMap bi ap pnl matched).map (fun pr => pr.2)),
      ∃ m ∈ matched, p.page_id ∈ m.page_ids := by
  intro p hp
  rw [mem_jsSortBy] at hp
  obtain ⟨pr, hpr, hpr2⟩ := List.mem_map.mp hp
  obtain ⟨hpage, hnd, hiff, hprops⟩ := buildThirdPartyMap_inv bi ap pnl matched
  have hkeyp : pr.1 = p.page_id := by
    rw [← hpr2]
    exact (hpage pr hpr).symm
  have hpreq : pr = (p.page_id, p) := Prod.ext hkeyp hpr2
  have hget : alGet (buildThirdPartyMap bi ap pnl matched) p.page_id = some p :=
    alGet_of_mem_nodup _ _ _ (hpreq ▸ hpr) hnd
  obtain ⟨⟨pr', hpr', hpr'k, -, -⟩, -, -⟩ := hprops p.page_id p hget
  have hmem' := (mem_tpPairs _ _ pr').mp hpr'
  exact ⟨pr'.1, hmem'.1, hpr'k ▸ hmem'.2.1⟩

theorem buildDiscoveryResult_domains_assoc (brandName : String) (bi : BrandInfo)
    (matched : List DomainBrandCheck) (allAds : List MetaAd)
    (ap : List (String × PageAgg)) (kws : List String) (dm : List (String × ℕ))
    (tdc : ℕ) (brandAds : List MetaAd) (dfu : List (String × List (String × ℕ))) :
    (∀ d ∈ (buildDiscoveryResult brandName bi matched allAds ap kws dm tdc brandAds
        dfu).domains.presell, ∃ m ∈ matched, m.domain = d) ∧
    (∀ d ∈ (buildDiscoveryResult brandName bi matched allAds ap kws dm tdc brandAds
        dfu).domains.redirect, ∃ m ∈ matched, m.domain = d) ∧
    (∀ d ∈ (buildDiscoveryResult brandName bi matched allAds ap kws dm tdc brandAds
        dfu).domains.final_shop,
      bi.brand_domain = some d ∨ ∃ m ∈ matched, m.domain = d) ∧
    (∀ d ∈ (buildDiscoveryResult brandName bi matched allAds ap kws dm tdc brandAds
        dfu).domains.all,
      bi.brand_domain = some d ∨ ∃ m ∈ matched, m.domain = d) := by
  rcases hcat : categorizeDomains matched with ⟨pre, red, shop0⟩
  have hdomains : (buildDiscoveryResult brandName bi matched allAds ap kws dm tdc
        brandAds dfu).domains
      = ⟨pre, red,
          (if optTruthy bi.brand_domain ∧ bi.brand_domain.getD "" ∉ shop0 then
            bi.brand_domain.getD "" :: shop0
          else shop0),
          dedupList (pre ++ red ++
            (if optTruthy bi.brand_domain ∧ bi.brand_domain.getD "" ∉ shop0 then
              bi.brand_domain.getD "" :: shop0
            else shop0))⟩ := by
    simp [buildDiscoveryResult, hcat]
  have hshopMem : ∀ d, d ∈ (if optTruthy bi.brand_domain ∧ bi.brand_domain.getD "" ∉ shop0
        then bi.brand_domain.getD "" :: shop0 else shop0) →
      bi.brand_domain = some d ∨ ∃ m ∈ matched, m.domain = d := by
    intro d hd
    split_ifs at hd with hcond
    · rcases List.mem_cons.mp hd with hd | hd
      · left
        cases hbd : bi.brand_domain with
        | none => rw [hbd] at hcond; simp [optTruthy] at hcond
        | some x =>
          rw [hbd] at hd
          simp only [Option.getD_some] at hd
          rw [hd]
      · right
        exact categorizeDomains_sub matched d (by rw [hcat]; exact Or.inr (Or.inr hd))
    · right
      exact categorizeDomains_sub matched d (by rw [hcat]; exact Or.inr (Or.inr hd))
  refine ⟨?_, ?_, ?_, ?_⟩
  · intro d hd
    rw [hdomains] at hd
    exact categorizeDomains_sub matched d (by rw [hcat]; exact Or.inl hd)
  · intro d hd
    rw [hdomains] at hd
    exact categorizeDomains_sub matched d (by rw [hcat]; exact Or.inr (Or.inl hd))
  · intro d hd
    rw [hdomains] at hd
    exact hshopMem d hd
  · intro d hd
    rw [hdomains] at hd
    rw [show (DomainLists.all ⟨pre, red, _, _⟩) = _ from rfl, mem_dedupList] at hd
    rcases List.mem_append.mp hd with hd | hd
    · rcases List.mem_append.mp hd with hd | hd
      · exact Or.inr (categorizeDomains_sub matched d (by rw [hcat]; exact Or.inl hd))
      · exact Or.inr (categorizeDomains_sub matched d (by rw [hcat]; exact Or.inr (Or.inl hd)))
    · exact hshopMem d hd

/-- C1 (counterexample): a run whose deadline fires before step 6
verifies nothing at all — its verification-result list is empty — yet
the resolved brand domain still appears in the report's `final_shop`
and `all` domain lists, so those entries have no associated
verification result with `match = true` and confidence ≥ 0.70. -/
theorem C1_unverified_shop_counterexample :
    (discoverVerifyAndBuild "Glow25" glowBrand sixDomainState [] [] [] [] 0
        preStep6Oracle noMatchCheck).1.domains.final_shop = ["glow25.de"] ∧
    (discoverVerifyAndBuild "Glow25" glowBrand sixDomainState [] [] [] [] 0
        preStep6Oracle noMatchCheck).1.domains.all = ["glow25.de"] ∧
    step6Matched sixDomainState [] 0 preStep6Oracle noMatchCheck = [] := by
  exact ⟨rfl, rfl, rfl⟩

/-- C1 (amended): every third-party page and every categorized domain in
the final report is backed by one of the run's verification results with
`is_match = true` and confidence ≥ `MIN_CONFIDENCE` — except that the
resolved brand domain itself may enter the `final_shop` and `all` lists
without any verification result. -/
theorem C1_verified_backing_amended (brandName : String) (brandInfo : BrandInfo)
    (st : ExtractState) (allKeywords : List String) (allAds brandAds : List MetaAd)
    (priorityDomains : List String) (maxDomainsToCheck : ℕ) (oracle : DeadlineOracle)
    (check : String → DomainBrandCheck) :
    (∀ p ∈ (discoverVerifyAndBuild brandName brandInfo st allKeywords allAds brandAds
        priorityDomains maxDomainsToCheck oracle check).1.pages.third_party,
      ∃ m ∈ step6AllMatches st priorityDomains maxDomainsToCheck oracle check,
        m.is_match = true ∧ MIN_CONFIDENCE ≤ m.confidence ∧ p.page_id ∈ m.page_ids) ∧
    (∀ d ∈ (discoverVerifyAndBuild brandName brandInfo st allKeywords allAds brandAds
        priorityDomains maxDomainsToCheck oracle check).1.domains.presell,
      ∃ m ∈ step6AllMatches st priorityDomains maxDomainsToCheck oracle check,
        m.is_match = true ∧ MIN_CONFIDENCE ≤ m.confidence ∧ m.domain = d) ∧
    (∀ d ∈ (discoverVerifyAndBuild brandName brandInfo st allKeywords allAds brandAds
        priorityDomains maxDomainsToCheck oracle check).1.domains.redirect,
      ∃ m ∈ step6AllMatches st priorityDomains maxDomainsToCheck oracle check,
        m.is_match = true ∧ MIN_CONFIDENCE ≤ m.confidence ∧ m.domain = d) ∧
    (∀ d ∈ (discoverVerifyAndBuild brandName brandInfo st allKeywords allAds brandAds
        priorityDomains maxDomainsToCheck oracle check).1.domains.final_shop,
      brandInfo.brand_domain = some d ∨
      ∃ m ∈ step6AllMatches st priorityDomains maxDomainsToCheck oracle check,
        m.is_match = true ∧ MIN_CONFIDENCE ≤ m.confidence ∧ m.domain = d) ∧
    (∀ d ∈ (discoverVerifyAndBuild brandName brandInfo st allKeywords allAds brandAds
        priorityDomains maxDomainsToCheck oracle check).1.domains.all,
      brandInfo.brand_domain = some d ∨
      ∃ m ∈ step6AllMatches st priorityDomains maxDomainsToCheck oracle check,
        m.is_match = true ∧ MIN_CONFIDENCE ≤ m.confidence ∧ m.domain = d) := by
  have hm : ∀ m ∈ step6AllMatches st priorityDomains maxDomainsToCheck oracle check,
      m.is_match = true ∧ MIN_CONFIDENCE ≤ m.confidence := by
    intro m hm0
    rw [step6AllMatches, List.mem_filter, step6Matched] at hm0
    refine ⟨runStep6Loop_is_match oracle.batchAt check st.domainPageMap st.domainAdCount
      _ _ _ m hm0.1, ?_⟩
    have h2 := hm0.2
    simp only [decide_eq_true_eq, Nat.not_lt] at h2
    exact h2
  have hproj : (discoverVerifyAndBuild brandName brandInfo st allKeywords allAds brandAds
        priorityDomains maxDomainsToCheck oracle check).1
      = buildDiscoveryResult brandName brandInfo
          (step6AllMatches st priorityDomains maxDomainsToCheck oracle check) allAds
          st.allPages allKeywords
          (tallyDetectionMethods
            (step6Matched st priorityDomains maxDomainsToCheck oracle check))
          (step6Selected st priorityDomains maxDomainsToCheck oracle).length brandAds
          st.domainFullUrls := rfl
  obtain ⟨hd1, hd2, hd3, hd4⟩ := buildDiscoveryResult_domains_assoc brandName brandInfo
    (step6AllMatches st priorityDomains maxDomainsToCheck oracle check) allAds
    st.allPages allKeywords
    (tallyDetectionMethods (step6Matched st priorityDomains maxDomainsToCheck oracle check))
    (step6Selected st priorityDomains maxDomainsToCheck oracle).length brandAds
    st.domainFullUrls
  refine ⟨?_, ?_, ?_, ?_, ?_⟩
  · intro p hp
    rw [hproj] at hp
    obtain ⟨m, hmm, hpid⟩ := third_party_assoc brandInfo st.allPages
      (buildPageNameLookup brandAds allAds)
      (step6AllMatches st priorityDomains maxDomainsToCheck oracle check) p hp
    obtain ⟨him, hconf⟩ := hm m hmm
    exact ⟨m, hmm, him, hconf, hpid⟩
  · intro d hd
    rw [hproj] at hd
    obtain ⟨m, hmm, hdom⟩ := hd1 d hd
    obtain ⟨him, hconf⟩ := hm m hmm
    exact ⟨m, hmm, him, hconf, hdom⟩
  · intro d hd
    rw [hproj] at hd
    obtain ⟨m, hmm, hdom⟩ := hd2 d hd
    obtain ⟨him, hconf⟩ := hm m hmm
    exact ⟨m, hmm, him, hconf, hdom⟩
  · intro d hd
    rw [hproj] at hd
    rcases hd3 d hd with hbd | ⟨m, hmm, hdom⟩
    · exact Or.inl hbd
    · obtain ⟨him, hconf⟩ := hm m hmm
      exact Or.inr ⟨m, hmm, him, hconf, hdom⟩
  · intro d hd
    rw [hproj] at hd
    rcases hd4 d hd with hbd | ⟨m, hmm, hdom⟩
    · exact Or.inl hbd
    · obtain ⟨him, hconf⟩ := hm m hmm
      exact Or.inr ⟨m, hmm, him, hconf, hdom⟩

theorem runStep6Loop_count_le (batchAt : ℕ → Bool) (check : String → DomainBrandCheck)
    (pageMap : List (String × List String)) (adCount : List (String × ℕ)) :
    ∀ (fuel bIdx : ℕ) (doms : List String),
      (runStep6Loop batchAt check pageMap adCount fuel bIdx doms).2 ≤ doms.length := by
  intro fuel
  induction fuel with
  | zero =>
    intro bIdx doms
    cases doms with
    | nil => simp [runStep6Loop]
    | cons d ds => simp [runStep6Loop]
  | succ f ih =>
    intro bIdx doms
    cases doms with
    | nil => simp [runStep6Loop]
    | cons d ds =>
      by_cases hb : batchAt bIdx
      · simp [runStep6Loop, hb]
      · simp only [runStep6Loop, if_neg hb]
        have h1 := ih (bIdx + 1) ((d :: ds).drop DOMAIN_CHECK_CONCURRENCY)
        have h2 : ((d :: ds).take DOMAIN_CHECK_CONCURRENCY).length
            + ((d :: ds).drop DOMAIN_CHECK_CONCURRENCY).length = (d :: ds).length := by
          rw [← List.length_append, List.take_append_drop]
        simp only [List.length_cons, List.length_take, List.length_drop] at h1 h2 ⊢
        omega

theorem step6Selected_length_le (st : ExtractState) (priorityDomains : List String)
    (maxDomainsToCheck : ℕ) (oracle : DeadlineOracle) :
    (step6Selected st priorityDomains maxDomainsToCheck oracle).length
      ≤ st.domainPageMap.length := by
  rw [step6Selected]
  have hsorted : (jsSortBy (domainSortLe priorityDomains st.domainAdCount)
      (st.domainPageMap.map (·.1))).length = st.domainPageMap.length := by
    rw [(jsSortBy_perm _ _).length_eq, List.length_map]
  split_ifs with h1 h2
  · simp
  · rw [List.length_take]
    omega
  · omega

/-- C6 (counterexample): a run whose deadline fires after the first
batch of step 6 checks only 5 of the 6 candidates, yet the report says
`unique_domains_checked = 6` — the count reported is the length of the
selected candidate list, not the number actually checked, so it is not
less than the total candidate count. -/
theorem C6_reported_vs_checked_counterexample :
    (discoverVerifyAndBuild "Glow25" glowBrand sixDomainState [] [] [] [] 20
        midRunOracle noMatchCheck).1.scan_stats.unique_domains_checked = 6 ∧
    (discoverVerifyAndBuild "Glow25" glowBrand sixDomainState [] [] [] [] 20
        midRunOracle noMatchCheck).2 = 5 ∧
    (discoverVerifyAndBuild "Glow25" glowBrand sixDomainState [] [] [] [] 20
        midRunOracle noMatchCheck).1.success = true := by
  exact ⟨rfl, rfl, rfl⟩

/-- C6 (amended): every run of steps 5–7 produces a `success = true`
report (the builder never fails); the number of domains actually checked
never exceeds the reported `unique_domains_checked`, which equals the
length of the selected candidate list (so is at most the total candidate
count, and is 0 when the deadline fires before step 6) — but when the
deadline fires mid-loop the reported count can exceed the checked count,
so it need not be strictly below the candidate count. -/
theorem C6_deadline_degrade_amended (brandName : String) (brandInfo : BrandInfo)
    (st : ExtractState) (allKeywords : List String) (allAds brandAds : List MetaAd)
    (priorityDomains : List String) (maxDomainsToCheck : ℕ) (oracle : DeadlineOracle)
    (check : String → DomainBrandCheck) :
    (discoverVerifyAndBuild brandName brandInfo st allKeywords allAds brandAds
        priorityDomains maxDomainsToCheck oracle check).1.success = true ∧
    (discoverVerifyAndBuild brandName brandInfo st allKeywords allAds brandAds
        priorityDomains maxDomainsToCheck oracle check).1.scan_stats.unique_domains_checked
      = (step6Selected st priorityDomains maxDomainsToCheck oracle).length ∧
    (discoverVerifyAndBuild brandName brandInfo st allKeywords allAds brandAds
        priorityDomains maxDomainsToCheck oracle check).2
      ≤ (discoverVerifyAndBuild brandName brandInfo st allKeywords allAds brandAds
        priorityDomains maxDomainsToCheck oracle check).1.scan_stats.unique_domains_checked ∧
    (discoverVerifyAndBuild brandName brandInfo st allKeywords allAds brandAds
        priorityDomains maxDomainsToCheck oracle check).1.scan_stats.unique_domains_checked
      ≤ st.domainPageMap.length ∧
    (oracle.preStep6 = true →
      (discoverVerifyAndBuild brandName brandInfo st allKeywords allAds brandAds
        priorityDomains maxDomainsToCheck oracle check).1.scan_stats.unique_domains_checked
        = 0) := by
  have hstats : (discoverVerifyAndBuild brandName brandInfo st allKeywords allAds brandAds
        priorityDomains maxDomainsToCheck oracle check).1.scan_stats.unique_domains_checked
      = (step6Selected st priorityDomains maxDomainsToCheck oracle).length := rfl
  have hc : (discoverVerifyAndBuild brandName brandInfo st allKeywords allAds brandAds
        priorityDomains maxDomainsToCheck oracle check).2
      = (runStep6Loop oracle.batchAt check st.domainPageMap st.domainAdCount
          (step6Selected st priorityDomains maxDomainsToCheck oracle).length 0
          (step6Selected st priorityDomains maxDomainsToCheck oracle)).2 := rfl
  refine ⟨rfl, hstats, ?_, ?_, ?_⟩
  · rw [hc, hstats]
    exact runStep6Loop_count_le oracle.batchAt check st.domainPageMap st.domainAdCount
      _ 0 _
  · rw [hstats]
    exact step6Selected_length_le st priorityDomains maxDomainsToCheck oracle
  · intro h
    rw [hstats]
    simp [step6Selected, h]

theorem alSet_nodup {β : Type} (m : List (String × β)) (k : String) (v : β)
    (h : (m.map (·.1)).Nodup) : ((alSet m k v).map (·.1)).Nodup := by
  by_cases hk : k ∈ m.map (·.1)
  · rw [alSet_keys_of_key m k v hk]
    exact h
  · rw [alSet_keys_of_not_key m k v hk]
    rw [List.nodup_append]
    refine ⟨h, List.nodup_singleton k, ?_⟩
    intro a ha hb
    rw [List.mem_singleton] at hb
    exact hk (hb ▸ ha)

theorem splitOnP_no_sat {p : Char → Bool} :
    ∀ (xs : List Char) (l : List Char), l ∈ xs.splitOnP p → ∀ c ∈ l, p c = false := by
  intro xs
  induction xs with
  | nil =>
    intro l hl c hc
    rw [List.splitOnP_nil] at hl
    rw [List.mem_singleton] at hl
    subst hl
    simp at hc
  | cons a rest ih =>
    intro l hl c hc
    rw [List.splitOnP_cons] at hl
    by_cases ha : p a
    · rw [if_pos ha] at hl
      rcases List.mem_cons.mp hl with h | h
      · subst h
        simp at hc
      · exact ih l h c hc
    · rw [if_neg ha] at hl
      cases hsp : rest.splitOnP p with
      | nil =>
        rw [hsp] at hl
        simp at hl
      | cons hd tl =>
        rw [hsp] at hl
        rw [List.modifyHead_cons] at hl
        rcases List.mem_cons.mp hl with h | h
        · subst h
          rcases List.mem_cons.mp hc with hc | hc
          · subst hc
            exact eq_false_of_ne_true ha
          · exact ih hd (hsp ▸ List.mem_cons_self hd tl) c hc
        · exact ih l (hsp ▸ List.mem_cons_of_mem hd h) c hc

theorem jsIsSpace_jsToLowerChar (c : Char) (h : jsIsSpace c = false) :
    jsIsSpace (jsToLowerChar c) = false := by
  rw [jsToLowerChar]
  cases hf : lowerPairs.find? (fun p => p.1 = c) with
  | none => simpa using h
  | some pr =>
    simp only [Option.map_some', Option.getD_some]
    have hmem := List.mem_of_find?_eq_some hf
    have hall : ∀ pr ∈ lowerPairs, jsIsSpace pr.2 = false := by decide
    exact hall pr hmem

theorem jsTrim_eq_self (s : String) (h : ∀ c ∈ s.data, jsIsSpace c = false) :
    jsTrim s = s := by
  have key : ∀ (l : List Char), (∀ c ∈ l, jsIsSpace c = false) →
      l.dropWhile jsIsSpace = l := by
    intro l hl
    cases l with
    | nil => rfl
    | cons c cs =>
      rw [List.dropWhile_cons_of_neg]
      simp [hl c (List.mem_cons_self c cs)]
  rw [jsTrim, key _ h, key _ (by
    intro c hc
    exact h c (List.mem_reverse.mp hc)), List.reverse_reverse]

theorem rawTokens_mem (text : String) (w : String) (h : w ∈ rawTokens text) :
    4 ≤ w.data.length ∧ (∀ c ∈ w.data, jsIsSpace c = false) := by
  rw [rawTokens] at h
  obtain ⟨w0, hw0, hmap⟩ := List.mem_map.mp h
  have hf := List.mem_filter.mp hw0
  have hlen : 4 ≤ w0.data.length := by simpa using hf.2
  have hpiece : ∀ c ∈ w0.data, jsIsSpace c = false := by
    have hsp := hf.1
    rw [splitDrop] at hsp
    obtain ⟨l, hl, hl2⟩ := List.mem_map.mp hsp
    have hl3 := (List.mem_filter.mp hl).1
    intro c hc
    have hld : w0.data = l := by rw [← hl2]
    exact splitOnP_no_sat _ l hl3 c (hld ▸ hc)
  have hlower : ∀ c ∈ (jsToLower w0).data, jsIsSpace c = false := by
    intro c hc
    rw [jsToLower] at hc
    obtain ⟨c0, hc0, hcc⟩ := List.mem_map.mp hc
    rw [← hcc]
    exact jsIsSpace_jsToLowerChar c0 (hpiece c0 hc0)
  have htrim : jsTrim (jsToLower w0) = jsToLower w0 := jsTrim_eq_self _ hlower
  rw [← hmap, htrim]
  refine ⟨?_, hlower⟩
  rw [jsToLower]
  simpa using hlen

theorem mem_adRawTokens (ad : MetaAd) (w : String) (h : w ∈ adRawTokens ad) :
    ∃ t, w ∈ rawTokens t := by
  rw [adRawTokens] at h
  rcases List.mem_append.mp h with h | h
  · rcases List.mem_append.mp h with h | h
    · obtain ⟨t, -, ht⟩ := List.mem_flatMap.mp h
      exact ⟨t, ht⟩
    · obtain ⟨t, -, ht⟩ := List.mem_flatMap.mp h
      exact ⟨t, ht⟩
  · obtain ⟨t, -, ht⟩ := List.mem_flatMap.mp h
    exact ⟨t, ht⟩

theorem count_filter_of_pos {p : String → Bool} (l : List String) (a : String)
    (h : p a = true) : (l.filter p).count a = l.count a := by
  induction l with
  | nil => rfl
  | cons x rest ih =>
    by_cases hx : p x
    · rw [List.filter_cons_of_pos hx, List.count_cons, List.count_cons, ih]
    · rw [List.filter_cons_of_neg hx, ih, List.count_cons]
      have hxa : (x == a) = false := by
        rw [beq_eq_false_iff_ne]
        intro he
        rw [he] at hx
        exact hx h
      simp [hxa]

theorem count_append_singleton (toks : List String) (w0 w : String) (h : w ≠ w0) :
    (toks ++ [w0]).count w = toks.count w := by
  rw [List.count_append]
  have : [w0].count w = 0 := by
    simp [List.count_singleton', h]
  omega

theorem swInv_step (source : String) (toks : List String) (m : List (String × WordScore))
    (w0 : String) (h : swInv toks m) : swInv (toks ++ [w0]) (scoreStep source m w0) := by
  obtain ⟨hnd, h1, h2⟩ := h
  have hw0cnt : (toks ++ [w0]).count w0 = toks.count w0 + 1 := by
    rw [List.count_append]
    simp
  cases hg : alGet m w0 with
  | some s =>
    simp only [scoreStep, hg]
    refine ⟨alSet_nodup m w0 _ hnd, ?_, ?_⟩
    · intro w s' hs'
      by_cases hw : w = w0
      · subst hw
        rw [alGet_alSet_self] at hs'
        injection hs' with hs'
        subst hs'
        obtain ⟨hf, hp⟩ := h1 w s hg
        rw [hw0cnt]
        refine ⟨?_, by omega⟩
        show s.frequency + 1 = toks.count w + 1
        omega
      · rw [alGet_alSet_ne m w0 w _ hw] at hs'
        rw [count_append_singleton toks w0 w hw]
        exact h1 w s' hs'
    · intro w hw
      by_cases hww : w = w0
      · subst hww
        rw [alGet_alSet_self]
        rfl
      · rw [alGet_alSet_ne m w0 w _ hww]
        rw [count_append_singleton toks w0 w hww] at hw
        exact h2 w hw
  | none =>
    have hz : toks.count w0 = 0 := by
      by_contra hzz
      have := h2 w0 (by omega)
      rw [hg] at this
      simp at this
    simp only [scoreStep, hg]
    refine ⟨alSet_nodup m w0 _ hnd, ?_, ?_⟩
    · intro w s' hs'
      by_cases hw : w = w0
      · subst hw
        rw [alGet_alSet_self] at hs'
        injection hs' with hs'
        subst hs'
        rw [hw0cnt, hz]
        exact ⟨rfl, by omega⟩
      · rw [alGet_alSet_ne m w0 w _ hw] at hs'
        rw [count_append_singleton toks w0 w hw]
        exact h1 w s' hs'
    · intro w hw
      by_cases hww : w = w0
      · subst hww
        rw [alGet_alSet_self]
        rfl
      · rw [alGet_alSet_ne m w0 w _ hww]
        rw [count_append_singleton toks w0 w hww] at hw
        exact h2 w hw

theorem swInv_fold_tokens (source : String) (ws : List String) :
    ∀ (toks : List String) (m : List (String × WordScore)), swInv toks m →
      swInv (toks ++ ws) (ws.foldl (scoreStep source) m) := by
  induction ws with
  | nil =>
    intro toks m h
    simpa using h
  | cons w rest ih =>
    intro toks m h
    have h1 := swInv_step source toks m w h
    have h2 := ih (toks ++ [w]) _ h1
    rw [List.append_assoc] at h2
    exact h2

theorem swInv_texts (bl bn source : String) (ts : List String) :
    ∀ (toks : List String) (m : List (String × WordScore)), swInv toks m →
      swInv (toks ++ ts.flatMap (extractWords bl bn))
        (ts.foldl (fun m' t => extractAndScoreWords bl bn m' t source) m) := by
  induction ts with
  | nil =>
    intro toks m h
    simpa using h
  | cons t rest ih =>
    intro toks m h
    have h1 : swInv (toks ++ extractWords bl bn t) (extractAndScoreWords bl bn m t source) :=
      swInv_fold_tokens source (extractWords bl bn t) toks m h
    have h2 := ih (toks ++ extractWords bl bn t) _ h1
    rw [List.append_assoc] at h2
    rw [List.flatMap_cons]
    exact h2

theorem swInv_ad (bl bn : String) (ad : MetaAd) (toks : List String)
    (m : List (String × WordScore)) (h : swInv toks m) :
    swInv (toks ++ adFilteredTokens bl bn ad) (scoreAd bl bn m ad) := by
  have heq : scoreAd bl bn m ad
      = (ad.ad_creative_link_descriptions.getD []).foldl
          (fun m' d => extractAndScoreWords bl bn m' d "description")
          ((ad.ad_creative_link_titles.getD []).foldl
            (fun m' t => extractAndScoreWords bl bn m' t "title")
            ((ad.ad_creative_bodies.getD []).foldl
              (fun m' b => extractAndScoreWords bl bn m' b "body") m)) := by
    cases hb : ad.ad_creative_bodies <;> cases ht : ad.ad_creative_link_titles <;>
      cases hd : ad.ad_creative_link_descriptions <;> simp [scoreAd, hb, ht, hd]
  have h1 := swInv_texts bl bn "body" (ad.ad_creative_bodies.getD []) toks m h
  have h2 := swInv_texts bl bn "title" (ad.ad_creative_link_titles.getD []) _ _ h1
  have h3 := swInv_texts bl bn "description" (ad.ad_creative_link_descriptions.getD []) _ _ h2
  rw [heq]
  rw [adFilteredTokens, ← List.append_assoc, ← List.append_assoc]
  exact h3

theorem swInv_buildWordScores (bl bn : String) (ads : List MetaAd) :
    swInv (ads.flatMap (adFilteredTokens bl bn)) (buildWordScores ads bl bn) := by
  have h0 : swInv [] [] := by
    refine ⟨by simp, ?_, ?_⟩
    · intro w s hs
      simp [alGet] at hs
    · intro w hw
      simp at hw
  have key : ∀ (l : List MetaAd) (toks : List String) (m : List (String × WordScore)),
      swInv toks m →
      swInv (toks ++ l.flatMap (adFilteredTokens bl bn)) (l.foldl (scoreAd bl bn) m) := by
    intro l
    induction l with
    | nil =>
      intro toks m h
      simpa using h
    | cons ad rest ih =>
      intro toks m h
      have h1 := swInv_ad bl bn ad toks m h
      have h2 := ih (toks ++ adFilteredTokens bl bn ad) _ h1
      rw [List.append_assoc] at h2
      rw [List.flatMap_cons]
      exact h2
  have := key ads [] [] h0
  simpa [buildWordScores] using this

theorem flatMap_extractWords_eq (bl bn : String) (ts : List String) :
    ts.flatMap (extractWords bl bn) = (ts.flatMap rawTokens).filter (keywordTokenOk bl bn) := by
  induction ts with
  | nil => rfl
  | cons t rest ih =>
    rw [List.flatMap_cons, List.flatMap_cons, List.filter_append, ih]
    rfl

theorem adFilteredTokens_eq (bl bn : String) (ad : MetaAd) :
    adFilteredTokens bl bn ad = (adRawTokens ad).filter (keywordTokenOk bl bn) := by
  rw [adFilteredTokens, adRawTokens, List.filter_append, List.filter_append,
    flatMap_extractWords_eq, flatMap_extractWords_eq, flatMap_extractWords_eq]

theorem stream_filter_eq (bl bn : String) (ads : List MetaAd) :
    ads.flatMap (adFilteredTokens bl bn)
      = (ads.flatMap adRawTokens).filter (keywordTokenOk bl bn) := by
  induction ads with
  | nil => rfl
  | cons ad rest ih =>
    rw [List.flatMap_cons, List.flatMap_cons, List.filter_append, ih, adFilteredTokens_eq]

theorem buildWordScores_key (ads : List MetaAd) (bl bn k : String) (s : WordScore)
    (h : alGet (buildWordScores ads bl bn) k = some s) :
    keywordTokenOk bl bn k = true ∧
    s.frequency = (ads.flatMap adRawTokens).count k ∧
    0 < (ads.flatMap adRawTokens).count k ∧
    (∃ t, k ∈ rawTokens t) := by
  obtain ⟨-, h1, -⟩ := swInv_buildWordScores bl bn ads
  obtain ⟨hf, hp⟩ := h1 k s h
  rw [stream_filter_eq] at hf hp
  have hmem : k ∈ (ads.flatMap adRawTokens).filter (keywordTokenOk bl bn) :=
    List.count_pos_iff.mp hp
  have hok : keywordTokenOk bl bn k = true := (List.mem_filter.mp hmem).2
  rw [count_filter_of_pos _ _ hok] at hf hp
  have hraw : k ∈ ads.flatMap adRawTokens := List.count_pos_iff.mp hp
  obtain ⟨ad, -, had⟩ := List.mem_flatMap.mp hraw
  exact ⟨hok, hf, hp, mem_adRawTokens ad k had⟩

theorem mergeSingle_mem (maxK : ℕ) (l : List (String × KeywordScoreEntry)) :
    ∀ (acc : List String × List KeywordScoreEntry) (x : String),
      x ∈ (l.foldl (mergeSingleStep maxK) acc).1 → x ∈ acc.1 ∨ ∃ pr ∈ l, pr.1 = x := by
  induction l with
  | nil =>
    intro acc x h
    exact Or.inl h
  | cons pr rest ih =>
    intro acc x h
    rw [List.foldl_cons] at h
    rcases ih (mergeSingleStep maxK acc pr) x h with h2 | h2
    · rw [mergeSingleStep] at h2
      split_ifs at h2
      · rcases List.mem_append.mp h2 with h3 | h3
        · exact Or.inl h3
        · rw [List.mem_singleton] at h3
          exact Or.inr ⟨pr, List.mem_cons_self pr rest, h3.symm⟩
      · exact Or.inl h2
    · obtain ⟨pr', hpr', hx⟩ := h2
      exact Or.inr ⟨pr', List.mem_cons_of_mem pr hpr', hx⟩

theorem mergeCompound_mem (maxK : ℕ) (l : List KeywordScoreEntry) :
    ∀ (acc : List String × List KeywordScoreEntry) (x : String),
      x ∈ (l.foldl (mergeCompoundStep maxK) acc).1 →
      x ∈ acc.1 ∨ ∃ ck ∈ l, ck.keyword = x := by
  induction l with
  | nil =>
    intro acc x h
    exact Or.inl h
  | cons ck rest ih =>
    intro acc x h
    rw [List.foldl_cons] at h
    rcases ih (mergeCompoundStep maxK acc ck) x h with h2 | h2
    · rw [mergeCompoundStep] at h2
      dsimp only at h2
      split_ifs at h2
      · exact Or.inl h2
      · rcases List.mem_append.mp h2 with h3 | h3
        · exact Or.inl h3
        · rw [List.mem_singleton] at h3
          exact Or.inr ⟨ck, List.mem_cons_self ck rest, h3.symm⟩
      · exact Or.inl h2
    · obtain ⟨ck', hck', hx⟩ := h2
      exact Or.inr ⟨ck', List.mem_cons_of_mem ck hck', hx⟩

theorem addBigrams_space (counts : List (String × ℕ)) (ws : List String)
    (h : ∀ pr ∈ counts, ' ' ∈ pr.1.data) : ∀ pr ∈ addBigrams counts ws, ' ' ∈ pr.1.data := by
  rw [addBigrams]
  refine foldl_preserve _ (fun c => ∀ pr ∈ c, ' ' ∈ pr.1.data) ?_ _ counts h
  intro c a hc
  rcases a with ⟨w1, w2⟩
  dsimp only
  split_ifs with h1 h2
  · exact hc
  · exact hc
  · intro pr hpr
    rcases mem_alSet _ _ _ pr hpr with hp | hp
    · exact hc pr hp
    · rw [hp]
      show ' ' ∈ (capitalize w1 ++ " " ++ capitalize w2).data
      rw [String.data_append, String.data_append]
      simp [String.data]

theorem compound_keywords_space (ads : List MetaAd) (bl bn : String) :
    ∀ ck ∈ generateCompoundKeywords ads bl bn, ' ' ∈ ck.keyword.data := by
  intro ck hck
  rw [generateCompoundKeywords] at hck
  obtain ⟨e, he, hmape⟩ := List.mem_map.mp hck
  have he2 := List.take_subset 10 _ he
  rw [mem_jsSortBy] at he2
  have he3 := (List.mem_filter.mp he2).1
  have hstep : ∀ (c : List (String × ℕ)) (ad : MetaAd),
      (∀ pr ∈ c, ' ' ∈ pr.1.data) →
      (∀ pr ∈ (fun counts ad =>
          let texts := (ad.ad_creative_bodies.getD []) ++ (ad.ad_creative_link_titles.getD [])
          texts.foldl (fun c2 text => addBigrams c2 (compoundTokens bl bn text)) counts) c ad,
        ' ' ∈ pr.1.data) := by
    intro c ad hc
    exact foldl_preserve (fun c2 text => addBigrams c2 (compoundTokens bl bn text))
      (fun c2 : List (String × ℕ) => ∀ pr ∈ c2, ' ' ∈ pr.1.data)
      (fun c2 text hc2 => addBigrams_space c2 (compoundTokens bl bn text) hc2) _ c hc
  have hbig : ∀ pr ∈ ads.foldl
      (fun counts ad =>
        let texts := (ad.ad_creative_bodies.getD []) ++ (ad.ad_creative_link_titles.getD [])
        texts.foldl (fun c2 text => addBigrams c2 (compoundTokens bl bn text)) counts)
      [], ' ' ∈ pr.1.data :=
    foldl_preserve
      (fun counts ad =>
        let texts := (ad.ad_creative_bodies.getD []) ++ (ad.ad_creative_link_titles.getD [])
        texts.foldl (fun c2 text => addBigrams c2 (compoundTokens bl bn text)) counts)
      (fun c : List (String × ℕ) => ∀ pr ∈ c, ' ' ∈ pr.1.data)
      hstep ads [] (by simp)
  have hee := hbig e he3
  rw [← hmape]
  exact hee

/-- C9: every single-token (space-free) keyword the generator returns
occurs at least `max(3, ceil(0.5% of ad count))` times in the ads' raw
token stream, is at least 4 characters long, is not purely numeric, not
a stop word, not a generic ad word, and neither equals, contains, nor
is contained in the lower-cased brand name. -/
theorem C9_single_token_keywords (ads : List MetaAd) (brandName : String)
    (maxKeywords : ℕ) (k : String)
    (hk : k ∈ (generateKeywords ads brandName maxKeywords).keywords)
    (hsp : ' ' ∉ k.data) :
    minFrequency ads.length ≤ (ads.flatMap adRawTokens).count k ∧
    4 ≤ k.data.length ∧
    isPureNumeric k = false ∧
    isStopWord k = false ∧
    isGenericAdWord k = false ∧
    k ≠ jsToLower brandName ∧
    strContains (jsToLower brandName) k = false ∧
    strContains k (jsToLower brandName) = false := by
  have hk2 : k ∈ ((generateCompoundKeywords ads (jsToLower brandName)
      (stripSeparators (jsToLower brandName))).foldl (mergeCompoundStep maxKeywords)
      ((((singlesSorted ads brandName maxKeywords).map (·.1)).zip
          ((singlesSorted ads brandName maxKeywords).map
            (fun e => (⟨e.1, e.2.frequency, e.2.sources.headD "body"⟩ : KeywordScoreEntry)))).foldl
        (mergeSingleStep maxKeywords) ([], []))).1 := hk
  rcases mergeCompound_mem maxKeywords _ _ k hk2 with hsing | ⟨ck, hck, hcke⟩
  · rcases mergeSingle_mem maxKeywords _ _ k hsing with hnil | ⟨pr, hpr, hpr1⟩
    · simp at hnil
    · rcases pr with ⟨k0, sc⟩
      have hk0 : k0 = k := hpr1
      subst hk0
      have hz := List.of_mem_zip hpr
      obtain ⟨e, he, he1⟩ := List.mem_map.mp hz.1
      have hetake : e ∈ jsSortBy (fun a b => b.2.frequency ≤ a.2.frequency)
          ((buildWordScores ads (jsToLower brandName)
              (stripSeparators (jsToLower brandName))).filter
            (fun en => minFrequency ads.length ≤ en.2.frequency)) :=
        List.take_subset maxKeywords _ he
      rw [mem_jsSortBy] at hetake
      have hef := List.mem_filter.mp hetake
      have hfreqmin : minFrequency ads.length ≤ e.2.frequency := by
        simpa using hef.2
      have hpair : e = (k0, e.2) := Prod.ext he1 rfl
      have hget : alGet (buildWordScores ads (jsToLower brandName)
          (stripSeparators (jsToLower brandName))) k0 = some e.2 :=
        alGet_of_mem_nodup _ _ _ (hpair ▸ hef.1)
          (swInv_buildWordScores (jsToLower brandName)
            (stripSeparators (jsToLower brandName)) ads).1
      obtain ⟨hok, hfreq, hpos, t, ht⟩ := buildWordScores_key ads (jsToLower brandName)
        (stripSeparators (jsToLower brandName)) k0 e.2 hget
      have hlen := rawTokens_mem t k0 ht
      simp only [keywordTokenOk, Bool.and_eq_true, Bool.not_eq_true'] at hok
      obtain ⟨⟨⟨⟨hnum, hdig⟩, hstop⟩, hgen⟩, hbrand⟩ := hok
      simp only [isBrandWord, Bool.or_eq_false_iff, decide_eq_false_iff_not] at hbrand
      obtain ⟨⟨⟨hne, -⟩, hc1⟩, hc2⟩ := hbrand
      refine ⟨?_, hlen.1, hnum, hstop, hgen, hne, hc1, hc2⟩
      rw [← hfreq]
      exact hfreqmin
  · have hsp2 := compound_keywords_space ads (jsToLower brandName)
      (stripSeparators (jsToLower brandName)) ck hck
    rw [hcke] at hsp2
    exact absurd hsp2 hsp

set_option maxRecDepth 40000 in
/-- C9 (witness): the concrete run on the Glow25 fixture ads returns
the single-token keyword "kollagen", which indeed occurs 3 ≥
`minFrequency 2` times in the raw token stream and passes every
filter. -/
theorem C9_single_token_keywords_witness :
    ("kollagen" ∈ (generateKeywords kwAds "Glow25" 10).keywords) ∧
    (' ' ∉ "kollagen".data) ∧
    (minFrequency kwAds.length ≤ (kwAds.flatMap adRawTokens).count "kollagen" ∧
      4 ≤ "kollagen".data.length ∧
      isPureNumeric "kollagen" = false ∧
      isStopWord "kollagen" = false ∧
      isGenericAdWord "kollagen" = false ∧
      "kollagen" ≠ jsToLower "Glow25" ∧
      strContains (jsToLower "Glow25") "kollagen" = false ∧
      strContains "kollagen" (jsToLower "Glow25") = false) :=
  ⟨by decide, by decide,
    C9_single_token_keywords kwAds "Glow25" 10 "kollagen" (by decide) (by decide)⟩
